import Mathlib

/-!
# YDE-Raffle: verification of the ticket-reservation and payment-reconciliation core

A shallow embedding of `functions/index.js` from the YDE-Raffle repository.
The file contains several overlapping revisions of the same Cloud Functions;
we embed the revisions the specification's claims point at:

* `stripeWebhook` (first revision, around line 1000): the webhook-driven
  Entry Materializer with `raffle`, `rolex_raffle`, `donation` and legacy
  `rolex` branches, guarded by the `webhookProcessed` flag.
* `stripeWebhook` (second revision, around line 2787): the earlier rewrite,
  with `rolex`, `raffle` and `donation` branches.
* `createSpinPaymentIntent` (around line 2593): the Ticket Allocator with
  the `2N` random-probe retry loop and the compensating rollback.
* `claimSpinTicket` (first revision, around line 1236): the free-claim flow
  with the one-claim-per-user guard.
* `_rebuildAllReferrerTotals` / `recalculateRaffleTotals` (first revision):
  the recalculation (repair) job.
* `assignReferrerToSales` / `assignReferrerToRolexTickets` (first revisions):
  the bulk attribution transfer.

JavaScript numbers are modelled as `ℚ` (all monetary values in the code are
finite decimals); `cleanAmount`'s `Math.round(x*100)/100` becomes rounding
half-up to a multiple of `1/100`.  Firestore collections are modelled as
association lists keyed by document id; `update` on a missing document is an
error, `set` with `merge` is an upsert, and `FieldValue.increment` is an
in-place addition.  Randomness (`Math.random()`) is an oracle stream given as
a parameter; external gateway calls are modelled by a boolean outcome
parameter.  Server timestamps are a `ℕ` parameter `now`.
-/

namespace YdeRaffle

/-! ## JavaScript number helpers (functions/index.js lines 44-59) -/

/-- `Math.round` in JavaScript: half-up rounding, `⌊x + 1/2⌋`. -/
def jsRound (q : ℚ) : ℤ := ⌊q + 1/2⌋

/-- `cleanAmount` (line 44): round a monetary value to 2 decimal places,
`Math.round(num * 100) / 100`.  The missing-field / non-numeric case
(`parseFloat` giving `NaN`, mapped to `0`) is handled by `cleanAmountM`. -/
def cleanQ (q : ℚ) : ℚ := (jsRound (q * 100) : ℚ) / 100

/-- `cleanAmount` applied to a metadata field that may be absent:
`parseFloat(undefined)` is `NaN`, and `cleanAmount` maps `NaN` to `0`. -/
def cleanAmountM : Option ℚ → ℚ
  | none => 0
  | some q => cleanQ q

/-- `cleanTicketCount` (line 55): `parseInt` then `Math.max(0, num)`;
a missing field (`NaN`) becomes `0`. -/
def cleanTicketCountM : Option ℤ → ℕ
  | none => 0
  | some z => z.toNat

/-- JavaScript `a || b` on numbers: `0` (and `NaN`, already mapped to `0`
by the cleaners) is falsy. -/
def jsOrQ (a b : ℚ) : ℚ := if a = 0 then b else a

/-- JavaScript `a || b` on non-negative integer counts: `0` is falsy. -/
def jsOrNat (a b : ℕ) : ℕ := if a = 0 then b else a

/-- A rational that is a whole number of cents (the fixed-point invariant the
code maintains through `cleanAmount`). -/
def IsCent (q : ℚ) : Prop := ∃ n : ℤ, q = (n : ℚ) / 100

theorem isCent_cleanQ (q : ℚ) : IsCent (cleanQ q) := ⟨jsRound (q * 100), rfl⟩

theorem isCent_zero : IsCent 0 := ⟨0, by norm_num⟩

theorem isCent_add {a b : ℚ} (ha : IsCent a) (hb : IsCent b) : IsCent (a + b) := by
  obtain ⟨m, hm⟩ := ha
  obtain ⟨n, hn⟩ := hb
  exact ⟨m + n, by rw [hm, hn]; push_cast; ring⟩

theorem cleanQ_of_isCent {a : ℚ} (ha : IsCent a) : cleanQ a = a := by
  obtain ⟨n, hn⟩ := ha
  subst hn
  unfold cleanQ jsRound
  have h1 : (n : ℚ) / 100 * 100 = (n : ℚ) := by field_simp
  rw [h1]
  have h2 : ⌊(n : ℚ) + 1/2⌋ = n := by
    rw [add_comm, Int.floor_add_int]
    norm_num
  rw [h2]

theorem isCent_cleanAmountM (o : Option ℚ) : IsCent (cleanAmountM o) := by
  cases o with
  | none => exact isCent_zero
  | some q => exact isCent_cleanQ q

theorem isCent_jsOrQ {a b : ℚ} (ha : IsCent a) (hb : IsCent b) : IsCent (jsOrQ a b) := by
  unfold jsOrQ
  split <;> assumption

/-! ## Association-list stores: the document database

A Firestore collection is a list of `(document id, document)` pairs.
`set` replaces in place (or appends), `erase` deletes, `lookup` reads. -/

/-- A keyed document collection. -/
def Store (K V : Type) : Type := List (K × V)

namespace Store

variable {K V : Type} [DecidableEq K]

def empty : Store K V := []

def lookup (k : K) : Store K V → Option V
  | [] => none
  | (k2, v) :: rest => if k2 = k then some v else lookup k rest

/-- Create-or-overwrite at a key (Firestore `set`): replaces the first
binding in place, or appends a new one. -/
def set (k : K) (v : V) : Store K V → Store K V
  | [] => [(k, v)]
  | (k2, v2) :: rest => if k2 = k then (k, v) :: rest else (k2, v2) :: set k v rest

/-- Delete a document (Firestore `delete`). -/
def erase (k : K) : Store K V → Store K V
  | [] => []
  | (k2, v2) :: rest => if k2 = k then rest else (k2, v2) :: erase k rest

def keys (s : Store K V) : List K := s.map Prod.fst

/-- Well-formedness: at most one document per key. -/
def WF (s : Store K V) : Prop := s.keys.Nodup

instance [DecidableEq V] : DecidableEq (Store K V) :=
  inferInstanceAs (DecidableEq (List (K × V)))

instance [DecidableEq V] (s : Store K V) : Decidable (WF s) :=
  inferInstanceAs (Decidable (List.Nodup _))

instance : Membership (K × V) (Store K V) :=
  inferInstanceAs (Membership (K × V) (List (K × V)))

theorem lookup_set_self (k : K) (v : V) (s : Store K V) :
    lookup k (set k v s) = some v := by
  induction s with
  | nil => simp [set, lookup]
  | cons p rest ih =>
    obtain ⟨k2, v2⟩ := p
    by_cases h : k2 = k <;> simp [set, lookup, h, ih]

theorem lookup_set_ne {k k2 : K} (h : k2 ≠ k) (v : V) (s : Store K V) :
    lookup k (set k2 v s) = lookup k s := by
  induction s with
  | nil => simp [set, lookup, h]
  | cons p rest ih =>
    obtain ⟨k3, v3⟩ := p
    by_cases h3 : k3 = k2
    · subst h3
      simp [set, lookup, h]
    · by_cases h4 : k3 = k <;> simp [set, lookup, h3, h4, ih, Ne.symm h]

theorem lookup_eq_none_of_not_mem_keys {k : K} {s : Store K V} (h : k ∉ keys s) :
    lookup k s = none := by
  induction s with
  | nil => simp [lookup]
  | cons p rest ih =>
    obtain ⟨k2, v2⟩ := p
    simp only [keys, List.map_cons, List.mem_cons] at h
    push_neg at h
    simp only [lookup, if_neg (fun he : k2 = k => h.1 he.symm)]
    exact ih h.2

theorem lookup_erase_self (k : K) (s : Store K V) (hwf : WF s) :
    lookup k (erase k s) = none := by
  induction s with
  | nil => simp [erase, lookup]
  | cons p rest ih =>
    obtain ⟨k2, v2⟩ := p
    have hcons : (k2 ∉ keys rest) ∧ (keys rest).Nodup := List.nodup_cons.mp hwf
    by_cases h : k2 = k
    · subst h
      simp only [erase, if_pos rfl]
      exact lookup_eq_none_of_not_mem_keys hcons.1
    · simp [erase, lookup, h, ih hcons.2]

theorem lookup_erase_ne {k k2 : K} (h : k2 ≠ k) (s : Store K V) :
    lookup k (erase k2 s) = lookup k s := by
  induction s with
  | nil => simp [erase, lookup]
  | cons p rest ih =>
    obtain ⟨k3, v3⟩ := p
    by_cases h3 : k3 = k2
    · subst h3
      simp [erase, lookup, h, fun he : k3 = k => h (he ▸ rfl)]
    · by_cases h4 : k3 = k <;> simp [erase, lookup, h3, h4, ih, Ne.symm h]

theorem keys_set_of_mem {k : K} (v : V) {s : Store K V} (h : k ∈ keys s) :
    keys (set k v s) = keys s := by
  induction s with
  | nil => simp [keys] at h
  | cons p rest ih =>
    obtain ⟨k2, v2⟩ := p
    by_cases h2 : k2 = k
    · simp [set, keys, h2]
    · simp only [keys, List.map_cons, List.mem_cons] at h
      have h3 : k ∈ keys rest := by
        rcases h with h | h
        · exact absurd h.symm h2
        · exact h
      have h4 := ih h3
      simp only [keys] at h4
      simp only [set, if_neg h2, keys, List.map_cons]
      rw [h4]

theorem keys_set (k : K) (v : V) (s : Store K V) :
    keys (set k v s) = if k ∈ keys s then keys s else keys s ++ [k] := by
  split
  · exact keys_set_of_mem v ‹_›
  · rename_i hnm
    induction s with
    | nil => simp [set, keys]
    | cons p rest ih =>
      obtain ⟨k2, v2⟩ := p
      simp only [keys, List.map_cons, List.mem_cons] at hnm
      push_neg at hnm
      have h2 : k2 ≠ k := fun he => hnm.1 he.symm
      have h4 := ih hnm.2
      simp only [keys] at h4
      simp only [set, if_neg h2, keys, List.map_cons]
      rw [h4, List.cons_append]

theorem wf_set {s : Store K V} (hwf : WF s) (k : K) (v : V) : WF (set k v s) := by
  unfold WF
  rw [keys_set]
  split
  · exact hwf
  · simpa [List.nodup_append] using ⟨hwf, ‹_›⟩

theorem keys_erase_subset (k : K) (s : Store K V) : keys (erase k s) ⊆ keys s := by
  induction s with
  | nil => simp [erase, keys]
  | cons q rest2 ih2 =>
    obtain ⟨k3, v3⟩ := q
    by_cases h3 : k3 = k
    · simp only [erase, if_pos h3, keys, List.map_cons]
      exact List.subset_cons_of_subset k3 (List.Subset.refl _)
    · simp only [erase, if_neg h3, keys, List.map_cons]
      exact List.cons_subset_cons k3 ih2

theorem length_set_of_not_mem {k : K} {s : Store K V} (h : k ∉ keys s) (v : V) :
    List.length (set k v s) = List.length s + 1 := by
  induction s with
  | nil => rfl
  | cons p rest ih =>
    obtain ⟨k2, v2⟩ := p
    simp only [keys, List.map_cons, List.mem_cons] at h
    push_neg at h
    have h2 : k2 ≠ k := fun he => h.1 he.symm
    simp [set, h2, ih h.2]

theorem wf_erase {s : Store K V} (hwf : WF s) (k : K) : WF (erase k s) := by
  induction s with
  | nil => exact hwf
  | cons p rest ih =>
    obtain ⟨k2, v2⟩ := p
    have hcons : (k2 ∉ keys rest) ∧ (keys rest).Nodup := List.nodup_cons.mp hwf
    by_cases h : k2 = k
    · simp only [erase, if_pos h]
      exact hcons.2
    · simp only [erase, if_neg h]
      refine List.nodup_cons.mpr ⟨fun hm => hcons.1 (keys_erase_subset k rest hm), ih hcons.2⟩

end Store

/-! ## Data model: documents of the Firestore collections -/

/-- A `rolex_entries` document: one quantity-based Rolex Raffle sale record
(created by the first `stripeWebhook` revision, lines 1079-1093). -/
structure RolexEntry where
  paymentIntentId : String
  name : String
  firstName : String
  email : String
  phoneNumber : String
  ticketsBought : ℕ
  amountPaid : ℚ
  chargedAmount : ℚ
  status : String
  timestamp : ℕ
  sourceApp : String
  referrerRefId : Option String
  referrerUid : Option String
  updatedAt : Option ℕ
deriving DecidableEq

/-- A `splitThePotTickets` document: one Split The Pot sale batch. -/
structure PotEntry where
  fullName : String
  firstName : String
  phoneNumber : String
  email : String
  referrerRefId : Option String
  referrerUid : Option String
  referrerName : Option String
  amountPaid : ℚ
  ticketCount : ℤ
  paymentMethod : String
  timestamp : ℕ
  entryType : String
  sourceApp : String
  updatedAt : Option ℕ
deriving DecidableEq

/-- A `rolex_tickets` document, keyed by ticket number (the bounded 1..650
keyspace of the legacy spin flow).  Fields not written by every flow are
optional. -/
structure RolexTicket where
  status : String
  timestamp : Option ℕ
  name : String
  firstName : Option String
  email : Option String
  phoneNumber : Option String
  sourceApp : String
  referrerRefId : Option String
  amountPaid : Option ℚ
  paymentIntentId : Option String
  uid : Option String
  isFreeClaim : Option Bool
  updatedAt : Option ℕ
deriving DecidableEq

/-- A `referrers` document (the counter fields the embedded functions touch;
`goal`, `clickCount` and `createdAt` play no role in the claims). -/
structure Referrer where
  refId : String
  name : String
  totalTickets : ℤ
  rolexTicketsTotal : ℤ
  totalAmount : ℚ
deriving DecidableEq

/-- A `stripe_payment_intents` status document (the webhook reads only
`webhookProcessed` and writes `status`/`webhookProcessed`/`updatedAt`;
the creation-time snapshot fields are not needed by any claim). -/
structure PIDoc where
  status : String
  webhookProcessed : Bool
  updatedAt : Option ℕ
deriving DecidableEq

/-- A `stripe_donation_payment_intents` document. -/
structure DonationPI where
  amount : ℚ
  status : String
  referrerRefId : Option String
  webhookProcessed : Bool
  amountPaid : Option ℚ
  sourceApp : String
  updatedAt : Option ℕ
deriving DecidableEq

/-- A `user_claims` document for the free-spin one-claim-per-user guard. -/
structure UserClaim where
  freeSpinClaimed : Bool
  claimedTicketNumber : Option ℕ
  claimedAt : Option ℕ
  claimedName : Option String
deriving DecidableEq

/-- The `counters/raffle_totals` document. -/
structure RaffleTotals where
  totalTickets : ℤ
  totalAmount : ℚ
deriving DecidableEq

/-- The `counters/rolex_totals` document. -/
structure RolexTotals where
  totalTicketsSold : ℤ
  totalAmount : ℚ
deriving DecidableEq

/-- The `counters/donation_totals` document. -/
structure DonationTotals where
  totalAmount : ℚ
deriving DecidableEq

/-- The document database.  Auto-generated ids of `.add` are modelled by a
`next...Id` counter per collection. -/
structure St where
  rolexTickets : Store ℕ RolexTicket
  rolexEntries : Store ℕ RolexEntry
  nextRolexEntryId : ℕ
  splitThePotTickets : Store ℕ PotEntry
  nextPotId : ℕ
  paymentIntents : Store String PIDoc
  donationIntents : Store String DonationPI
  referrers : Store String Referrer
  userClaims : Store String UserClaim
  raffleTotals : RaffleTotals
  rolexTotals : RolexTotals
  donationTotals : DonationTotals
deriving DecidableEq

/-- The metadata the creation functions attach to a gateway payment intent.
Fields that a given flow does not set are `none` (JS `undefined`). -/
structure Meta where
  name : String
  email : String
  phone : String
  ticketsBought : Option ℤ
  baseAmount : Option ℚ
  amount : Option ℚ
  referrerRefId : Option String
  ticketNumber : Option ℕ
  entryType : String
  sourceApp : Option String
deriving DecidableEq

/-- A gateway `payment_intent.succeeded` event object: the gateway-charged
amount in cents, plus the opaque metadata round-tripped from creation. -/
structure PaymentIntent where
  id : String
  amountCents : ℕ
  metadata : Meta
deriving DecidableEq

/-! ## Shared webhook helpers -/

/-- `name.split(' ')[0] || name`: the prefix before the first space (falling
back to the whole name when that prefix is empty). -/
def jsFirstName (name : String) : String :=
  let h := String.mk (name.toList.takeWhile (fun c => c ≠ ' '))
  if h = "" then name else h

/-- JS truthiness for an optional string field: `null`, `undefined` and the
empty string are all falsy. -/
def strTruthy : Option String → Option String
  | none => none
  | some s => if s = "" then none else some s

/-- The referrer query `referrers.where('refId','==',referrerRefId).limit(1)`:
first document of the collection whose `refId` equals the code.  `none` when
the metadata code is falsy or no referrer matches (lines 1064-1074). -/
def resolveReferrer (refs : Store String Referrer) (rid : Option String) :
    Option (String × Referrer) :=
  match strTruthy rid with
  | none => none
  | some r => refs.find? (fun p => p.2.refId = r)

/-- Atomic `FieldValue.increment` merge on a referrer document.  The three
deltas correspond to the `totalTickets`, `rolexTicketsTotal` and
`totalAmount` fields; a call site that does not touch a field passes `0`.
(`set` with `merge:true` would create the document were it missing; the
callers only reach this with a document found by `resolveReferrer`.) -/
def incReferrer (refs : Store String Referrer) (uid : String)
    (dPot dRolex : ℤ) (dAmt : ℚ) : Store String Referrer :=
  match refs.lookup uid with
  | some r => refs.set uid { r with
      totalTickets := r.totalTickets + dPot,
      rolexTicketsTotal := r.rolexTicketsTotal + dRolex,
      totalAmount := r.totalAmount + dAmt }
  | none => refs.set uid
      { refId := "", name := "", totalTickets := dPot,
        rolexTicketsTotal := dRolex, totalAmount := dAmt }

instance {ε α : Type} [DecidableEq ε] [DecidableEq α] : DecidableEq (Except ε α) := by
  intro a b
  cases a <;> cases b
  case error.error e1 e2 =>
    exact match decEq e1 e2 with
      | isTrue h => isTrue (by rw [h])
      | isFalse h => isFalse (fun he => h (Except.error.injEq .. ▸ he))
  case ok.ok x y =>
    exact match decEq x y with
      | isTrue h => isTrue (by rw [h])
      | isFalse h => isFalse (fun he => h (Except.ok.injEq .. ▸ he))
  case error.ok e x => exact isFalse (fun he => Except.noConfusion he)
  case ok.error x e => exact isFalse (fun he => Except.noConfusion he)

/-- Webhook HTTP responses (after signature verification, for a
`payment_intent.succeeded` event). -/
inductive WResp where
  | success
  | alreadyProcessed
  | serverError
deriving DecidableEq

/-- Final step of both webhook revisions (lines 1213-1218 / 2911-2915):
`docRefToCheck.update({status:'succeeded', webhookProcessed:true, updatedAt})`.
`update` on a missing document throws, surfacing as a 500. -/
def finishWebhook (now : ℕ) (piId : String) (isDon : Bool) (s : St) : WResp × St :=
  if isDon then
    match s.donationIntents.lookup piId with
    | none => (.serverError, s)
    | some d =>
      let d2 := { d with status := "succeeded", webhookProcessed := true, updatedAt := some now }
      (.success, { s with donationIntents := s.donationIntents.set piId d2 })
  else
    match s.paymentIntents.lookup piId with
    | none => (.serverError, s)
    | some d =>
      let d2 := { d with status := "succeeded", webhookProcessed := true, updatedAt := some now }
      (.success, { s with paymentIntents := s.paymentIntents.set piId d2 })

/-- `createDonationPaymentIntent` (lines 943-995): clean the submitted amount,
reject a missing/zero amount or blank contact fields, create the gateway
intent for `Math.round(cleanedAmount * 100)` cents with the cleaned amount
itself stored in `metadata.amount` (the submitted amount is the total to be
charged; no separate fee-excluded base is recorded anywhere), and store the
`stripe_donation_payment_intents` status document. -/
def createDonationPaymentIntent (piId : String) (amount : Option ℚ)
    (name email phone : String) (referral : Option String) (s : St) :
    Except String (PaymentIntent × St) :=
  let cleanedAmount := cleanAmountM amount
  if cleanedAmount = 0 ∨ name = "" ∨ email = "" ∨ phone = "" then
    .error "invalid-argument"
  else
    let pi : PaymentIntent :=
      { id := piId, amountCents := (jsRound (cleanedAmount * 100)).toNat,
        metadata := { name := name, email := email, phone := phone,
                      ticketsBought := none, baseAmount := none,
                      amount := some cleanedAmount,
                      referrerRefId := strTruthy referral, ticketNumber := none,
                      entryType := "donation", sourceApp := some "YDE Donation" } }
    let d : DonationPI :=
      { amount := cleanedAmount, status := "created",
        referrerRefId := strTruthy referral, webhookProcessed := false,
        amountPaid := none, sourceApp := "YDE Donation", updatedAt := none }
    .ok (pi, { s with donationIntents := s.donationIntents.set piId d })

/-! ## `stripeWebhook`, first revision (lines 1000-1229)

The handler after signature verification, for a `payment_intent.succeeded`
event.  Branch order follows the JS else-if chain: `rolex_raffle`, `raffle`,
`donation`, legacy `rolex`.  Each Firestore write lands sequentially; an
`update` on a missing document throws, surfacing as a 500 with every earlier
write already applied. -/

/-- The idempotency-guard flag the first webhook revision checks on entry:
`webhookProcessed` of the status record in the collection selected by the
entry type (lines 1023-1032); a missing document reads as unprocessed. -/
def webhookProcessedFlag (pi : PaymentIntent) (s : St) : Bool :=
  if pi.metadata.entryType = "donation" then
    ((s.donationIntents.lookup pi.id).map (fun d => d.webhookProcessed)).getD false
  else
    ((s.paymentIntents.lookup pi.id).map (fun d => d.webhookProcessed)).getD false

def stripeWebhook1 (now : ℕ) (pi : PaymentIntent) (s : St) : WResp × St :=
  let md := pi.metadata
  let firstName := jsFirstName md.name
  let isDon := md.entryType = "donation"
  let processed : Bool := webhookProcessedFlag pi s
  if processed then (.alreadyProcessed, s)
  else
    let amountCharged := cleanQ ((pi.amountCents : ℚ) / 100)
    let amountForSaleRecord : ℚ :=
      if md.entryType = "raffle" then cleanAmountM md.baseAmount
      else if md.entryType = "rolex_raffle" then cleanAmountM md.baseAmount
      else if md.entryType = "donation" then jsOrQ (cleanAmountM md.amount) amountCharged
      else cleanAmountM md.baseAmount
    let amountForSaleRecord := cleanQ amountForSaleRecord
    let ticketsCount : ℕ :=
      if md.entryType = "raffle" then cleanTicketCountM md.ticketsBought
      else if md.entryType = "rolex_raffle" then cleanTicketCountM md.ticketsBought
      else if md.entryType = "donation" then 0
      else jsOrNat (cleanTicketCountM md.ticketsBought) 1
    let resolved := resolveReferrer s.referrers md.referrerRefId
    let referrerUid := resolved.map Prod.fst
    let referrerName := resolved.map (fun p => p.2.name)
    if md.entryType = "rolex_raffle" then
      -- one batch document in rolex_entries (lines 1079-1093): NOT a per-unit fan-out
      let entry : RolexEntry :=
        { paymentIntentId := pi.id, name := md.name, firstName := firstName,
          email := md.email, phoneNumber := md.phone,
          ticketsBought := ticketsCount, amountPaid := amountForSaleRecord,
          chargedAmount := amountCharged, status := "paid", timestamp := now,
          sourceApp := md.sourceApp.getD "YDE Rolex Raffle (Webhook)",
          referrerRefId := strTruthy md.referrerRefId,
          referrerUid := referrerUid, updatedAt := none }
      let s1 := { s with rolexEntries := s.rolexEntries.set s.nextRolexEntryId entry,
                         nextRolexEntryId := s.nextRolexEntryId + 1 }
      let s2 := { s1 with rolexTotals :=
        { totalTicketsSold := s1.rolexTotals.totalTicketsSold + (ticketsCount : ℤ),
          totalAmount := s1.rolexTotals.totalAmount + amountForSaleRecord } }
      let s3 :=
        match referrerUid with
        | none => s2
        | some uid =>
          let refs2 := incReferrer s2.referrers uid 0 (ticketsCount : ℤ) amountForSaleRecord
          { s2 with referrers := refs2 }
      finishWebhook now pi.id isDon s3
    else if md.entryType = "raffle" then
      let entry : PotEntry :=
        { fullName := md.name, firstName := firstName, phoneNumber := md.phone,
          email := md.email, referrerRefId := strTruthy md.referrerRefId,
          referrerUid := referrerUid, referrerName := referrerName,
          amountPaid := amountForSaleRecord, ticketCount := (ticketsCount : ℤ),
          paymentMethod := "Stripe", timestamp := now, entryType := "stripe",
          sourceApp := md.sourceApp.getD "YDE Split The Pot (Webhook)",
          updatedAt := none }
      let s1 := { s with splitThePotTickets := s.splitThePotTickets.set s.nextPotId entry,
                         nextPotId := s.nextPotId + 1 }
      let s2 := { s1 with raffleTotals :=
        { totalTickets := s1.raffleTotals.totalTickets + (ticketsCount : ℤ),
          totalAmount := s1.raffleTotals.totalAmount + amountForSaleRecord } }
      let s3 :=
        match referrerUid with
        | none => s2
        | some uid =>
          let refs2 := incReferrer s2.referrers uid (ticketsCount : ℤ) 0 amountForSaleRecord
          { s2 with referrers := refs2 }
      finishWebhook now pi.id isDon s3
    else if md.entryType = "donation" then
      match s.donationIntents.lookup pi.id with
      | none => (.serverError, s)
      | some d =>
        let d2 := { d with status := "succeeded", amountPaid := some amountCharged,
                           webhookProcessed := true, updatedAt := some now,
                           sourceApp := md.sourceApp.getD "YDE Donation (Webhook)" }
        let s1 := { s with donationIntents := s.donationIntents.set pi.id d2 }
        let s2 := { s1 with donationTotals :=
          ⟨s1.donationTotals.totalAmount + amountForSaleRecord⟩ }
        let s3 :=
          match referrerUid with
          | none => s2
          | some uid =>
          let refs2 := incReferrer s2.referrers uid 0 0 amountForSaleRecord
          { s2 with referrers := refs2 }
        finishWebhook now pi.id isDon s3
    else if md.entryType = "rolex" then
      match md.ticketNumber with
      | none => finishWebhook now pi.id isDon s  -- `if (ticketNumber)` falsy: branch skipped
      | some tn =>
        match s.rolexTickets.lookup tn with
        | none => (.serverError, s)  -- update() of a missing reservation throws
        | some t =>
          let t2 := { t with status := "paid", paymentIntentId := some pi.id,
                             name := md.name, firstName := some firstName,
                             email := some md.email, phoneNumber := some md.phone,
                             amountPaid := some amountForSaleRecord, updatedAt := some now,
                             sourceApp := md.sourceApp.getD "YDE Rolex Raffle (Webhook)",
                             referrerRefId := strTruthy md.referrerRefId }
          let s1 := { s with rolexTickets := s.rolexTickets.set tn t2 }
          let s2 :=
            match referrerUid with
            | none => s1
            | some uid =>
              let refs2 := incReferrer s1.referrers uid 0 1 amountForSaleRecord
              { s1 with referrers := refs2 }
          finishWebhook now pi.id isDon s2
    else
      finishWebhook now pi.id isDon s

/-! ## `stripeWebhook`, second revision (lines 2787-2926)

The older rewrite.  Its idempotency check and final update always use
`stripe_payment_intents`; its `rolex` branch applies
`amountPaid = paymentIntent.amount / 100` — the gateway-charged
fee-inclusive amount — to the referrer's `totalAmount`. -/

/-- The second revision's guard: always the `stripe_payment_intents`
document (line 2809-2813). -/
def webhookProcessedFlag2 (pi : PaymentIntent) (s : St) : Bool :=
  ((s.paymentIntents.lookup pi.id).map (fun d => d.webhookProcessed)).getD false

def stripeWebhook2 (now : ℕ) (pi : PaymentIntent) (s : St) : WResp × St :=
  let md := pi.metadata
  let firstName := jsFirstName md.name
  let processed : Bool := webhookProcessedFlag2 pi s
  if processed then (.alreadyProcessed, s)
  else
    let amountPaid : ℚ := (pi.amountCents : ℚ) / 100
    let resolved := resolveReferrer s.referrers md.referrerRefId
    let referrerUid := resolved.map Prod.fst
    let referrerName := resolved.map (fun p => p.2.name)
    if md.entryType = "rolex" then
      match md.ticketNumber with
      | none => (.serverError, s)  -- doc(undefined): the update cannot be addressed
      | some tn =>
        match s.rolexTickets.lookup tn with
        | none => (.serverError, s)  -- update() of a missing reservation throws
        | some t =>
          let t2 := { t with status := "paid", paymentIntentId := some pi.id,
                             name := md.name, firstName := some firstName,
                             email := some md.email, phoneNumber := some md.phone,
                             amountPaid := some amountPaid, timestamp := some now,
                             sourceApp := md.sourceApp.getD "YDE Spin The Wheel (Webhook)",
                             referrerRefId := strTruthy md.referrerRefId }
          let s1 := { s with rolexTickets := s.rolexTickets.set tn t2 }
          let s2 :=
            match referrerUid with
            | none => s1
            | some uid =>
              let refs2 := incReferrer s1.referrers uid 0 1 amountPaid
              { s1 with referrers := refs2 }
          finishWebhook now pi.id false s2
    else if md.entryType = "raffle" then
      -- parseInt/parseFloat without cleaning; a missing metadata field would be
      -- NaN in JS, which no claim exercises and which we model as 0
      let ticketCount : ℤ := md.ticketsBought.getD 0
      let amountForPot : ℚ := md.baseAmount.getD 0
      let entry : PotEntry :=
        { fullName := md.name, firstName := firstName, phoneNumber := md.phone,
          email := md.email, referrerRefId := strTruthy md.referrerRefId,
          referrerUid := referrerUid, referrerName := referrerName,
          amountPaid := amountPaid, ticketCount := ticketCount,
          paymentMethod := "Stripe", timestamp := now, entryType := "stripe",
          sourceApp := md.sourceApp.getD "YDE Split The Pot (Webhook)",
          updatedAt := none }
      let s1 := { s with splitThePotTickets := s.splitThePotTickets.set s.nextPotId entry,
                         nextPotId := s.nextPotId + 1 }
      let s2 := { s1 with raffleTotals :=
        { totalTickets := s1.raffleTotals.totalTickets + ticketCount,
          totalAmount := s1.raffleTotals.totalAmount + amountForPot } }
      let s3 :=
        match referrerUid with
        | none => s2
        | some uid =>
          let refs2 := incReferrer s2.referrers uid ticketCount 0 amountForPot
          { s2 with referrers := refs2 }
      finishWebhook now pi.id false s3
    else if md.entryType = "donation" then
      match s.donationIntents.lookup pi.id with
      | none => (.serverError, s)
      | some d =>
        let d2 := { d with status := "succeeded", amountPaid := some amountPaid,
                           webhookProcessed := true, updatedAt := some now,
                           sourceApp := md.sourceApp.getD "YDE Donation (Webhook)" }
        let s1 := { s with donationIntents := s.donationIntents.set pi.id d2 }
        finishWebhook now pi.id false s1
    else
      finishWebhook now pi.id false s

/-! ## `createSpinPaymentIntent` (lines 2593-2681): the Ticket Allocator

Randomness is an oracle `cand : ℕ → ℕ` giving the candidate of each probe;
the JS candidate expression `Math.floor(Math.random() * TOTAL_TICKETS) + 1`
is `jsRandomTicket` applied to the `Math.random()` stream.  The gateway call
outcome is the parameter `gatewayOk`. -/

def TOTAL_TICKETS : ℕ := 650

/-- `Math.floor(r * TOTAL_TICKETS) + 1` for one `Math.random()` draw `r`. -/
def jsRandomTicket (r : ℚ) : ℕ := (⌊r * (TOTAL_TICKETS : ℚ)⌋).toNat + 1

theorem jsRandomTicket_mem {r : ℚ} (h0 : 0 ≤ r) (h1 : r < 1) :
    1 ≤ jsRandomTicket r ∧ jsRandomTicket r ≤ TOTAL_TICKETS := by
  have hq : ((TOTAL_TICKETS : ℚ)) = (650 : ℚ) := by norm_num [TOTAL_TICKETS]
  unfold jsRandomTicket
  rw [hq]
  constructor
  · omega
  · have hlt : r * (650 : ℚ) < 650 := by nlinarith
    have h2 : ⌊r * (650 : ℚ)⌋ < (650 : ℤ) := Int.floor_lt.mpr (by exact_mod_cast hlt)
    have hnn : (0 : ℤ) ≤ ⌊r * (650 : ℚ)⌋ := Int.floor_nonneg.mpr (by positivity)
    unfold TOTAL_TICKETS
    omega

/-- The purchaser data of a spin reservation request. -/
structure SpinData where
  name : String
  email : String
  phone : String
  referral : Option String
deriving DecidableEq

/-- Stable error kinds surfaced by the callable functions. -/
inductive SpinErr where
  | invalidArgument
  | resourceExhausted
  | internalErr
deriving DecidableEq

/-- The reservation document `transaction.set` writes when the probed key is
absent (lines 2618-2627). -/
def reservedTicket (now : ℕ) (d : SpinData) : RolexTicket :=
  { status := "reserved", timestamp := some now, name := d.name,
    firstName := some (jsFirstName d.name), email := some d.email,
    phoneNumber := some d.phone, sourceApp := "YDE Spin The Wheel",
    referrerRefId := strTruthy d.referral, amountPaid := none,
    paymentIntentId := none, uid := none, isFreeClaim := none, updatedAt := none }

/-- The retry loop (lines 2610-2639): up to the given budget of probes, each a
transactional insert-only-if-absent at `cand i`; the first successful insert
terminates the loop.  A collision leaves the store untouched and retries. -/
def spinTryLoop (cand : ℕ → ℕ) (now : ℕ) (d : SpinData)
    (tickets : Store ℕ RolexTicket) :
    ℕ → ℕ → Option ℕ × Store ℕ RolexTicket
  | 0, _ => (none, tickets)
  | budget + 1, i =>
    let c := cand i
    match tickets.lookup c with
    | some _ => spinTryLoop cand now d tickets budget (i + 1)
    | none => (some c, tickets.set c (reservedTicket now d))

/-- `createSpinPaymentIntent`: validate, allocate (budget `2N`), then call the
gateway; a gateway failure after a successful reservation triggers the
compensating delete of the just-created reservation (lines 2666-2674). -/
def createSpinPaymentIntent (cand : ℕ → ℕ) (now : ℕ) (gatewayOk : Bool)
    (d : SpinData) (s : St) : Except SpinErr ℕ × St :=
  if d.name = "" ∨ d.email = "" ∨ d.phone = "" then (.error .invalidArgument, s)
  else
    match spinTryLoop cand now d s.rolexTickets (TOTAL_TICKETS * 2) 0 with
    | (none, t2) => (.error .resourceExhausted, { s with rolexTickets := t2 })
    | (some k, t2) =>
      let s1 := { s with rolexTickets := t2 }
      if gatewayOk then (.ok k, s1)
      else
        (.error .internalErr, { s1 with rolexTickets := s1.rolexTickets.erase k })

/-! ## `claimSpinTicket`, first revision (lines 1236-1317): free-claim flow -/

inductive ClaimErr where
  | unauthenticated
  | failedPrecondition
  | resourceExhausted
deriving DecidableEq

/-- The free-claim ticket document (lines 1271-1280). -/
def claimedTicket (now : ℕ) (uid userName : String) : RolexTicket :=
  { status := "claimed", timestamp := some now, name := userName,
    firstName := none, email := none, phoneNumber := none,
    sourceApp := "YDE Free Spin Claim", referrerRefId := none,
    amountPaid := some 0, paymentIntentId := none, uid := some uid,
    isFreeClaim := some true, updatedAt := none }

/-- The claim retry loop: the winning transaction sets both the ticket
document and the caller's `user_claims` document (lines 1263-1301). -/
def claimLoop (cand : ℕ → ℕ) (now : ℕ) (uid userName : String)
    (tickets : Store ℕ RolexTicket) (claims : Store String UserClaim) :
    ℕ → ℕ → Option ℕ × (Store ℕ RolexTicket × Store String UserClaim)
  | 0, _ => (none, (tickets, claims))
  | budget + 1, i =>
    let c := cand i
    match tickets.lookup c with
    | some _ => claimLoop cand now uid userName tickets claims budget (i + 1)
    | none =>
      (some c, (tickets.set c (claimedTicket now uid userName),
                claims.set uid ⟨true, some c, some now, some userName⟩))

/-- `claimSpinTicket`: requires authentication; rejects with
failed-precondition when `freeSpinClaimed` is already true; otherwise probes
for a free slot as in the allocator. -/
def claimSpinTicket (cand : ℕ → ℕ) (now : ℕ) (auth : Option String)
    (nameData : Option String) (s : St) : Except ClaimErr ℕ × St :=
  match auth with
  | none => (.error .unauthenticated, s)
  | some uid =>
    let userName := (strTruthy nameData).getD "Anonymous Claim"
    let already := ((s.userClaims.lookup uid).map (fun c => c.freeSpinClaimed)).getD false
    if already then (.error .failedPrecondition, s)
    else
      match claimLoop cand now uid userName s.rolexTickets s.userClaims
          (TOTAL_TICKETS * 2) 0 with
      | (none, p) => (.error .resourceExhausted,
          { s with rolexTickets := p.1, userClaims := p.2 })
      | (some k, p) => (.ok k, { s with rolexTickets := p.1, userClaims := p.2 })

/-! ## `_rebuildAllReferrerTotals` (lines 1408-1513) and
`recalculateRaffleTotals` first revision (lines 1572-1621):
the recalculation (repair) job. -/

/-- A per-referrer aggregate accumulated while scanning entries:
`{ amount, tickets }`. -/
structure Agg where
  amount : ℚ
  tickets : ℕ
deriving DecidableEq

/-- One step of the rolex_entries group-by (lines 1418-1435). -/
def rolexAggStep (m : Store String Agg) (e : RolexEntry) : Store String Agg :=
  let amountPaid := jsOrQ e.amountPaid 0
  let cleanedAmount := cleanQ amountPaid
  match strTruthy e.referrerRefId with
  | none => m
  | some rid =>
    let cur := (m.lookup rid).getD ⟨0, 0⟩
    m.set rid ⟨cleanQ (cur.amount + cleanedAmount),
               cur.tickets + cleanTicketCountM (some (e.ticketsBought : ℤ))⟩

/-- Whether a rolex entry is part of the `status in ['paid','converted']`
query snapshot (lines 1411-1413). -/
def rolexStatusOk (e : RolexEntry) : Bool :=
  e.status = "paid" ∨ e.status = "converted"

/-- The rolex aggregates keyed by RefId, from the filtered snapshot. -/
def rolexAggMap (entries : List RolexEntry) : Store String Agg :=
  (entries.filter rolexStatusOk).foldl rolexAggStep Store.empty

/-- The per-referrer Split The Pot re-scan (lines 1459-1473): a running
`(tickets, amount)` fold with per-step rounding. -/
def potTotalsFold (entries : List PotEntry) : ℕ × ℚ :=
  entries.foldl (fun acc e =>
    (acc.1 + cleanTicketCountM (some e.ticketCount),
     cleanQ (acc.2 + cleanQ (jsOrQ e.amountPaid 0)))) (0, 0)

/-- Whether a donation document is part of the donation re-scan snapshot
(lines 1476-1479). -/
def donationStatusOk (d : DonationPI) : Bool :=
  d.status = "succeeded" ∨ d.status = "MANUAL_DONATED" ∨
    d.status = "MANUAL_DONATED_CONVERSION_SURPLUS"

/-- The donation amount re-scan for one referrer (lines 1481-1485). -/
def donationAmountFold (docs : List DonationPI) : ℚ :=
  docs.foldl (fun acc d => cleanQ (acc + cleanQ (jsOrQ d.amount 0))) 0

/-- The rebuilt counter fields for one referrer (steps 2a-2e). -/
def rebuildOneReferrer (s : St) (aggMap : Store String Agg)
    (uid : String) (r : Referrer) : Referrer :=
  let newRolex := (aggMap.lookup r.refId).getD ⟨0, 0⟩
  let potSnap := (s.splitThePotTickets.map Prod.snd).filter
    (fun e => e.referrerUid = some uid)
  let pot := potTotalsFold potSnap
  let donSnap := (s.donationIntents.map Prod.snd).filter
    (fun d => d.referrerRefId = some r.refId && donationStatusOk d)
  let newDonationAmount := donationAmountFold donSnap
  let newCombined := cleanQ (pot.2 + newRolex.amount + newDonationAmount)
  { r with totalTickets := (pot.1 : ℤ),
           rolexTicketsTotal := (newRolex.tickets : ℤ),
           totalAmount := newCombined }

/-- `_rebuildAllReferrerTotals`: overwrite (not increment) every referrer's
three counter fields with values recomputed from the entry collections. -/
def rebuildAllReferrerTotals (s : St) : St :=
  let aggMap := rolexAggMap (s.rolexEntries.map Prod.snd)
  let newRefs := s.referrers.foldl
    (fun refs p => Store.set p.1 (rebuildOneReferrer s aggMap p.1 p.2) refs)
    s.referrers
  { s with referrers := newRefs }

/-- `recalculateRaffleTotals` (first revision): recompute the global Split The
Pot counters from the full `splitThePotTickets` scan, overwrite
`counters/raffle_totals` with the absolute values, then rebuild all referrer
totals. -/
def recalculateRaffleTotals (su : Bool) (s : St) : Except String (ℤ × ℚ) × St :=
  if !su then (.error "permission-denied", s)
  else
    let entries := s.splitThePotTickets.map Prod.snd
    let totals := entries.foldl (fun acc e =>
      (acc.1 + (cleanTicketCountM (some e.ticketCount) : ℤ),
       cleanQ (acc.2 + cleanQ (jsOrQ e.amountPaid 0)))) ((0 : ℤ), (0 : ℚ))
    let totalAmount := cleanQ totals.2
    let s1 := { s with raffleTotals := ⟨totals.1, totalAmount⟩ }
    let s2 := rebuildAllReferrerTotals s1
    (.ok (totals.1, totalAmount), s2)

/-! ## Bulk attribution transfer, first revisions:
`assignReferrerToSales` (lines 2107-2240) and
`assignReferrerToRolexTickets` (lines 2248-2386). -/

/-- `chunkSize = 400` batching of the id list (lines 2147-2149). -/
def chunksOfGo {α : Type} (n : ℕ) : ℕ → List α → List (List α)
  | _, [] => []
  | 0, a :: rest => [a :: rest]
  | fuel + 1, a :: rest =>
    ((a :: rest).take n) :: chunksOfGo n fuel ((a :: rest).drop n)

def chunksOf {α : Type} (n : ℕ) (_ : 0 < n) (l : List α) : List (List α) :=
  chunksOfGo n l.length l

/-- Commit a batch of entry rewrites. -/
def applyUpdates {V : Type} (store : Store ℕ V) (ups : List (ℕ × V)) : Store ℕ V :=
  ups.foldl (fun st p => st.set p.1 p.2) store

/-- Running aggregates of an attribution transfer: the decrement map for old
referrers and the target's increments. -/
structure TransferAcc where
  decMap : Store String Agg
  targetTickets : ℕ
  targetAmount : ℚ
deriving DecidableEq

/-- One sale of a transfer chunk: skip missing snapshots and sales already
attributed to the target; otherwise accumulate the increment/decrement deltas
and queue the attribution rewrite (lines 2157-2199). -/
def salesXferStep (now : ℕ) (refId targetUid targetName : String)
    (store : Store ℕ PotEntry) (p : TransferAcc × List (ℕ × PotEntry)) (id : ℕ) :
    TransferAcc × List (ℕ × PotEntry) :=
  match store.lookup id with
  | none => p
  | some sale =>
    if sale.referrerUid = some targetUid then p
    else
      let tickets := cleanTicketCountM (some sale.ticketCount)
      let amount := jsOrQ (cleanQ sale.amountPaid) 0
      let dm :=
        match sale.referrerUid with
        | some old =>
          let cur := (p.1.decMap.lookup old).getD ⟨0, 0⟩
          Store.set old ⟨cleanQ (cur.amount + amount), cur.tickets + tickets⟩ p.1.decMap
        | none => p.1.decMap
      let upd : PotEntry := { sale with referrerRefId := some refId,
                                        referrerUid := some targetUid,
                                        referrerName := some targetName,
                                        updatedAt := some now }
      (⟨dm, p.1.targetTickets + tickets, cleanQ (p.1.targetAmount + amount)⟩,
       p.2 ++ [(id, upd)])

/-- One chunk of `assignReferrerToSales`: fetch the chunk's snapshots from the
current collection state, accumulate increments/decrements for every sale not
already attributed to the target, and commit the batched rewrites. -/
def processSalesChunk (now : ℕ) (refId targetUid targetName : String)
    (chunk : List ℕ) (store : Store ℕ PotEntry) (acc : TransferAcc) :
    Store ℕ PotEntry × TransferAcc :=
  let r := chunk.foldl (salesXferStep now refId targetUid targetName store) (acc, [])
  (applyUpdates store r.2, r.1)

def processSalesChunks (now : ℕ) (refId targetUid targetName : String)
    (chunks : List (List ℕ)) (store : Store ℕ PotEntry) (acc : TransferAcc) :
    Store ℕ PotEntry × TransferAcc :=
  chunks.foldl (fun p chunk =>
    processSalesChunk now refId targetUid targetName chunk p.1 p.2) (store, acc)

/-- Step 4 of the transfer: decrement old referrers (skipping the target) and,
when any sale moved, increment the target (lines 2200-2225). -/
def applyTransferTotals (isPot : Bool) (refs : Store String Referrer)
    (targetUid : String) (acc : TransferAcc) : Store String Referrer :=
  let refs1 := acc.decMap.foldl (fun rs p =>
    if p.1 = targetUid then rs
    else if isPot then incReferrer rs p.1 (-(p.2.tickets : ℤ)) 0 (-p.2.amount)
    else incReferrer rs p.1 0 (-(p.2.tickets : ℤ)) (-p.2.amount)) refs
  if acc.targetTickets > 0 then
    if isPot then incReferrer refs1 targetUid (acc.targetTickets : ℤ) 0 acc.targetAmount
    else incReferrer refs1 targetUid 0 (acc.targetTickets : ℤ) acc.targetAmount
  else refs1

/-- `assignReferrerToSales` (first revision). -/
def assignReferrerToSales (su : Bool) (now : ℕ) (saleIds : List ℕ)
    (refId : String) (s : St) : Except String ℕ × St :=
  if !su then (.error "permission-denied", s)
  else if saleIds = [] ∨ refId = "" then (.error "invalid-argument", s)
  else
    match s.referrers.find? (fun p => p.2.refId = refId) with
    | none => (.error "not-found", s)
    | some (targetUid, tr) =>
      let r := processSalesChunks now refId targetUid tr.name
        (chunksOf 400 (by norm_num) saleIds) s.splitThePotTickets ⟨Store.empty, 0, 0⟩
      let refs2 := applyTransferTotals true s.referrers targetUid r.2
      (.ok r.2.targetTickets, { s with splitThePotTickets := r.1, referrers := refs2 })

/-- One entry of a rolex transfer chunk: like the sales step but over
`rolex_entries`, restricted to `paid`/`converted` entries, entries already
attributed to the target skipped, rewriting only the attribution ids
(lines 2300-2345). -/
def rolexXferStep (now : ℕ) (refId targetUid : String)
    (store : Store ℕ RolexEntry) (p : TransferAcc × List (ℕ × RolexEntry)) (id : ℕ) :
    TransferAcc × List (ℕ × RolexEntry) :=
  match store.lookup id with
  | none => p
  | some entry =>
    if entry.status ≠ "paid" ∧ entry.status ≠ "converted" then p
    else if entry.referrerUid = some targetUid then p
    else
      let tickets := cleanTicketCountM (some (entry.ticketsBought : ℤ))
      let amount := jsOrQ (cleanQ entry.amountPaid) 0
      let dm :=
        match entry.referrerUid with
        | some old =>
          let cur := (p.1.decMap.lookup old).getD ⟨0, 0⟩
          Store.set old ⟨cleanQ (cur.amount + amount), cur.tickets + tickets⟩ p.1.decMap
        | none => p.1.decMap
      let upd : RolexEntry := { entry with referrerRefId := some refId,
                                           referrerUid := some targetUid,
                                           updatedAt := some now }
      (⟨dm, p.1.targetTickets + tickets, cleanQ (p.1.targetAmount + amount)⟩,
       p.2 ++ [(id, upd)])

/-- One chunk of `assignReferrerToRolexTickets` (lines 2300-2358). -/
def processRolexChunk (now : ℕ) (refId targetUid : String)
    (chunk : List ℕ) (store : Store ℕ RolexEntry) (acc : TransferAcc) :
    Store ℕ RolexEntry × TransferAcc :=
  let r := chunk.foldl (rolexXferStep now refId targetUid store) (acc, [])
  (applyUpdates store r.2, r.1)

def processRolexChunks (now : ℕ) (refId targetUid : String)
    (chunks : List (List ℕ)) (store : Store ℕ RolexEntry) (acc : TransferAcc) :
    Store ℕ RolexEntry × TransferAcc :=
  chunks.foldl (fun p chunk =>
    processRolexChunk now refId targetUid chunk p.1 p.2) (store, acc)

/-- `assignReferrerToRolexTickets` (first revision). -/
def assignReferrerToRolexTickets (su : Bool) (now : ℕ) (ticketIds : List ℕ)
    (refId : String) (s : St) : Except String ℕ × St :=
  if !su then (.error "permission-denied", s)
  else if ticketIds = [] ∨ refId = "" then (.error "invalid-argument", s)
  else
    match s.referrers.find? (fun p => p.2.refId = refId) with
    | none => (.error "not-found", s)
    | some (targetUid, _) =>
      let r := processRolexChunks now refId targetUid
        (chunksOf 400 (by norm_num) ticketIds) s.rolexEntries ⟨Store.empty, 0, 0⟩
      let refs2 := applyTransferTotals false s.referrers targetUid r.2
      (.ok r.2.targetTickets, { s with rolexEntries := r.1, referrers := refs2 })

/-! ## Webhook helper lemmas -/

theorem stripeWebhook1_of_flag {pi : PaymentIntent} {s : St} (now : ℕ)
    (h : webhookProcessedFlag pi s = true) :
    stripeWebhook1 now pi s = (.alreadyProcessed, s) := by
  unfold stripeWebhook1
  rw [h]
  rfl

theorem finishWebhook_success_flag {now : ℕ} {piId : String} {isDon : Bool} {sb s1 : St}
    (h : finishWebhook now piId isDon sb = (.success, s1)) :
    (if isDon then ((s1.donationIntents.lookup piId).map (fun d => d.webhookProcessed)).getD false
     else ((s1.paymentIntents.lookup piId).map (fun d => d.webhookProcessed)).getD false) = true := by
  unfold finishWebhook at h
  split at h
  · rename_i hdon
    split at h
    · exact absurd h (by simp)
    · rename_i d hd
      have h2 := congrArg Prod.snd h
      simp only at h2
      subst h2
      simp [hdon, Store.lookup_set_self]
  · rename_i hdon
    split at h
    · exact absurd h (by simp)
    · rename_i d hd
      have h2 := congrArg Prod.snd h
      simp only at h2
      subst h2
      simp [hdon, Store.lookup_set_self]

/-- Whatever path the first webhook revision takes to a 200, the status
record it checked on entry carries `webhookProcessed = true` afterwards. -/
theorem stripeWebhook1_success_flag {now : ℕ} {pi : PaymentIntent} {s s1 : St}
    (h : stripeWebhook1 now pi s = (.success, s1)) :
    webhookProcessedFlag pi s1 = true := by
  have hflag : ∀ sb : St,
      finishWebhook now pi.id (decide (pi.metadata.entryType = "donation")) sb = (.success, s1) →
      webhookProcessedFlag pi s1 = true := by
    intro sb hh
    have h2 := finishWebhook_success_flag hh
    unfold webhookProcessedFlag
    by_cases hdon : pi.metadata.entryType = "donation"
    · simpa [hdon] using h2
    · simpa [hdon] using h2
  simp only [stripeWebhook1] at h
  split at h
  · exact absurd h (by simp)
  · split at h
    · exact hflag _ h
    · split at h
      · exact hflag _ h
      · split at h
        · split at h
          · exact absurd h (by simp)
          · exact hflag _ h
        · split at h
          · split at h
            · exact hflag _ h
            · split at h
              · exact absurd h (by simp)
              · exact hflag _ h
          · exact hflag _ h

theorem finishWebhook_rolexEntries (now : ℕ) (piId : String) (isDon : Bool) (sb : St) :
    ((finishWebhook now piId isDon sb).2).rolexEntries = sb.rolexEntries := by
  unfold finishWebhook
  split <;> split <;> rfl

theorem finishWebhook_rolexTickets (now : ℕ) (piId : String) (isDon : Bool) (sb : St) :
    ((finishWebhook now piId isDon sb).2).rolexTickets = sb.rolexTickets := by
  unfold finishWebhook
  split <;> split <;> rfl

theorem finishWebhook_referrers (now : ℕ) (piId : String) (isDon : Bool) (sb : St) :
    ((finishWebhook now piId isDon sb).2).referrers = sb.referrers := by
  unfold finishWebhook
  split <;> split <;> rfl

/-! ## Example inputs shared by the concrete instantiations below -/

/-- A successful raffle payment event: 5 tickets, base $50, charged $52. -/
def exMetaRaffle : Meta :=
  { name := "Jane Doe", email := "jane@example.com", phone := "5551234",
    ticketsBought := some 5, baseAmount := some 50, amount := none,
    referrerRefId := some "JaneD", ticketNumber := none, entryType := "raffle",
    sourceApp := none }

def exPiRaffle : PaymentIntent :=
  { id := "pi_raffle_1", amountCents := 5200, metadata := exMetaRaffle }

def exStRaffle : St :=
  { rolexTickets := [], rolexEntries := [], nextRolexEntryId := 0,
    splitThePotTickets := [], nextPotId := 0,
    paymentIntents := [("pi_raffle_1", { status := "created", webhookProcessed := false, updatedAt := none })],
    donationIntents := [],
    referrers := [("u1", { refId := "JaneD", name := "Jane D", totalTickets := 0,
                           rolexTicketsTotal := 0, totalAmount := 0 })],
    userClaims := [],
    raffleTotals := ⟨0, 0⟩, rolexTotals := ⟨0, 0⟩, donationTotals := ⟨0⟩ }

/-- A successful rolex_raffle payment event: 2 tickets, base $300, charged $310. -/
def exMetaRolexRaffle : Meta :=
  { name := "Jane Doe", email := "jane@example.com", phone := "5551234",
    ticketsBought := some 2, baseAmount := some 300, amount := none,
    referrerRefId := none, ticketNumber := none, entryType := "rolex_raffle",
    sourceApp := none }

def exPiRolexRaffle : PaymentIntent :=
  { id := "pi_rr_1", amountCents := 31000, metadata := exMetaRolexRaffle }

def exStRolexRaffle : St :=
  { rolexTickets := [], rolexEntries := [], nextRolexEntryId := 0,
    splitThePotTickets := [], nextPotId := 0,
    paymentIntents := [("pi_rr_1", { status := "created", webhookProcessed := false, updatedAt := none })],
    donationIntents := [], referrers := [], userClaims := [],
    raffleTotals := ⟨0, 0⟩, rolexTotals := ⟨0, 0⟩, donationTotals := ⟨0⟩ }

/-- A legacy spin success event for ticket number 5, charged $155, with the
repo's own base field carrying $150. -/
def exMetaRolex : Meta :=
  { name := "Bob Apple", email := "bob@example.com", phone := "5550000",
    ticketsBought := some 1, baseAmount := some 150, amount := none,
    referrerRefId := some "JaneD", ticketNumber := some 5, entryType := "rolex",
    sourceApp := none }

def exPiRolex : PaymentIntent :=
  { id := "pi_rolex_1", amountCents := 15500, metadata := exMetaRolex }

/-- State in which the Sweeper has already deleted reservation 5. -/
def exStNoTicket : St :=
  { rolexTickets := [], rolexEntries := [], nextRolexEntryId := 0,
    splitThePotTickets := [], nextPotId := 0,
    paymentIntents := [("pi_rolex_1", { status := "created", webhookProcessed := false, updatedAt := none })],
    donationIntents := [],
    referrers := [("u1", { refId := "JaneD", name := "Jane D", totalTickets := 0,
                           rolexTicketsTotal := 0, totalAmount := 0 })],
    userClaims := [],
    raffleTotals := ⟨0, 0⟩, rolexTotals := ⟨0, 0⟩, donationTotals := ⟨0⟩ }

/-! ## C1: rolex_raffle materialization -/

/-- C1 as stated by the spec: processing a succeeded `rolex_raffle` intent of
quantity `q` and total base `B` adds `q` Sale Entry records, each with
`amountPaid = B / q` and a ticket count of `1`. -/
def c1FanOutClaim (now : ℕ) (pi : PaymentIntent) (s : St) : Prop :=
  let q := cleanTicketCountM pi.metadata.ticketsBought
  let B := cleanQ (cleanAmountM pi.metadata.baseAmount)
  let after := ((stripeWebhook1 now pi s).2).rolexEntries
  List.length after = List.length s.rolexEntries + q ∧
  ∀ p : ℕ × RolexEntry, p ∈ after →
    p.1 ∉ Store.keys s.rolexEntries →
    p.2.ticketsBought = 1 ∧ p.2.amountPaid = B / (q : ℚ)

/-- C1 counterexample: a succeeded rolex_raffle intent with quantity 2 and
base $300 produces one batch record, not two per-unit records. -/
theorem c1_fan_out_counterexample : ¬ c1FanOutClaim 5 exPiRolexRaffle exStRolexRaffle := by
  intro h
  unfold c1FanOutClaim at h
  exact absurd h.1 (by decide)

/-- C1 (amended): the webhook creates exactly **one** `rolex_entries` record
for the whole purchase, carrying `ticketsBought = q` and
`amountPaid = B` (the full base amount), not a per-unit fan-out. -/
theorem c1_rolex_raffle_one_batch_record (now : ℕ) (pi : PaymentIntent) (s : St)
    (hty : pi.metadata.entryType = "rolex_raffle")
    (hflag : webhookProcessedFlag pi s = false)
    (hfresh : s.nextRolexEntryId ∉ Store.keys s.rolexEntries) :
    ((stripeWebhook1 now pi s).2).rolexEntries =
      Store.set s.nextRolexEntryId
        { paymentIntentId := pi.id, name := pi.metadata.name,
          firstName := jsFirstName pi.metadata.name, email := pi.metadata.email,
          phoneNumber := pi.metadata.phone,
          ticketsBought := cleanTicketCountM pi.metadata.ticketsBought,
          amountPaid := cleanQ (cleanAmountM pi.metadata.baseAmount),
          chargedAmount := cleanQ ((pi.amountCents : ℚ) / 100),
          status := "paid", timestamp := now,
          sourceApp := pi.metadata.sourceApp.getD "YDE Rolex Raffle (Webhook)",
          referrerRefId := strTruthy pi.metadata.referrerRefId,
          referrerUid := (resolveReferrer s.referrers pi.metadata.referrerRefId).map Prod.fst,
          updatedAt := none } s.rolexEntries ∧
    List.length ((stripeWebhook1 now pi s).2).rolexEntries = List.length s.rolexEntries + 1 := by
  simp only [stripeWebhook1, hty, hflag]
  norm_num
  cases hres : resolveReferrer s.referrers pi.metadata.referrerRefId with
  | none =>
    constructor
    · simp [hres, finishWebhook_rolexEntries]
    · simp [hres, finishWebhook_rolexEntries, Store.length_set_of_not_mem hfresh]
  | some p =>
    constructor
    · simp [hres, finishWebhook_rolexEntries]
    · simp [hres, finishWebhook_rolexEntries, Store.length_set_of_not_mem hfresh]

theorem c1_rolex_raffle_one_batch_record_witness :
    ((stripeWebhook1 5 exPiRolexRaffle exStRolexRaffle).2).rolexEntries =
      Store.set 0
        { paymentIntentId := "pi_rr_1", name := "Jane Doe",
          firstName := jsFirstName "Jane Doe", email := "jane@example.com",
          phoneNumber := "5551234", ticketsBought := cleanTicketCountM (some 2),
          amountPaid := cleanQ (cleanAmountM (some 300)),
          chargedAmount := cleanQ ((31000 : ℚ) / 100),
          status := "paid", timestamp := 5,
          sourceApp := "YDE Rolex Raffle (Webhook)", referrerRefId := none,
          referrerUid := none, updatedAt := none } [] ∧
    List.length ((stripeWebhook1 5 exPiRolexRaffle exStRolexRaffle).2).rolexEntries = 0 + 1 := by
  have h := c1_rolex_raffle_one_batch_record 5 exPiRolexRaffle exStRolexRaffle
    (by decide) (by decide) (by decide)
  simpa [exPiRolexRaffle, exMetaRolexRaffle, exStRolexRaffle, resolveReferrer, strTruthy] using h

/-! ## C2: idempotent webhook replay -/

/-- C2: once a delivery of `payment_intent.succeeded` completed (HTTP 200,
setting `webhookProcessed = true`), delivering the same event again returns
success with no further effect: the state — Sale Entry collections and
aggregate counters included — is exactly unchanged. -/
theorem c2_webhook_replay_is_noop (now1 now2 : ℕ) (pi : PaymentIntent) (s : St)
    (h : (stripeWebhook1 now1 pi s).1 = .success) :
    stripeWebhook1 now2 pi ((stripeWebhook1 now1 pi s).2) =
      (.alreadyProcessed, (stripeWebhook1 now1 pi s).2) := by
  have h2 : stripeWebhook1 now1 pi s = (.success, (stripeWebhook1 now1 pi s).2) := by
    rw [← h]
  exact stripeWebhook1_of_flag now2 (stripeWebhook1_success_flag h2)

theorem c2_webhook_replay_is_noop_witness :
    stripeWebhook1 7 exPiRaffle ((stripeWebhook1 5 exPiRaffle exStRaffle).2) =
      (.alreadyProcessed, (stripeWebhook1 5 exPiRaffle exStRaffle).2) :=
  c2_webhook_replay_is_noop 5 7 exPiRaffle exStRaffle (by decide)

/-! ## C5: legacy rolex success with a missing reservation -/

/-- C5 as stated by the spec: when the reservation at the ticket-number key
no longer exists, the handler still lands the success via an upsert — the
response is a 200 and a paid record exists at the key afterwards. -/
def c5UpsertClaim (handler : ℕ → PaymentIntent → St → WResp × St)
    (now : ℕ) (pi : PaymentIntent) (s : St) (tn : ℕ) : Prop :=
  (handler now pi s).1 = .success ∧
  ∃ t : RolexTicket,
    Store.lookup tn ((handler now pi s).2).rolexTickets = some t ∧ t.status = "paid"

/-- C5 counterexample: with reservation 5 already deleted, neither webhook
revision lands the success — both fail on the update-only mutation. -/
theorem c5_upsert_counterexample :
    ¬ c5UpsertClaim stripeWebhook1 5 exPiRolex exStNoTicket 5 ∧
    ¬ c5UpsertClaim stripeWebhook2 5 exPiRolex exStNoTicket 5 := by
  constructor <;> (intro h; exact absurd h.1 (by decide))

/-- C5 (amended): the legacy `rolex` branch uses an update-only mutation, so
when the reservation record at the ticket-number key is gone both webhook
revisions return a 500 (the gateway will redeliver) and write nothing: no
record is created at the key and the state is exactly unchanged. -/
theorem c5_missing_reservation_update_fails (now : ℕ) (pi : PaymentIntent) (s : St) (tn : ℕ)
    (hty : pi.metadata.entryType = "rolex")
    (hf1 : webhookProcessedFlag pi s = false)
    (hf2 : webhookProcessedFlag2 pi s = false)
    (htn : pi.metadata.ticketNumber = some tn)
    (hmiss : Store.lookup tn s.rolexTickets = none) :
    stripeWebhook1 now pi s = (.serverError, s) ∧
    stripeWebhook2 now pi s = (.serverError, s) := by
  constructor
  · simp only [stripeWebhook1, hty, hf1, htn]
    simp [hmiss]
  · simp only [stripeWebhook2, hty, hf2, htn]
    simp [hmiss]

theorem c5_missing_reservation_update_fails_witness :
    stripeWebhook1 5 exPiRolex exStNoTicket = (.serverError, exStNoTicket) ∧
    stripeWebhook2 5 exPiRolex exStNoTicket = (.serverError, exStNoTicket) :=
  c5_missing_reservation_update_fails 5 exPiRolex exStNoTicket 5
    (by decide) (by decide) (by decide) (by decide) (by decide)

/-! ## C3, C4, C9, C10: allocator and free-claim properties -/

theorem spinTryLoop_exhausted (cand : ℕ → ℕ) (now : ℕ) (d : SpinData)
    (tickets : Store ℕ RolexTicket) :
    ∀ (b i : ℕ), (∀ j, j < b → (Store.lookup (cand (i + j)) tickets).isSome) →
      spinTryLoop cand now d tickets b i = (none, tickets) := by
  intro b
  induction b with
  | zero => intro i _; rfl
  | succ b ih =>
    intro i h
    have h0 := h 0 (Nat.succ_pos b)
    rw [Nat.add_zero] at h0
    obtain ⟨t, ht⟩ := Option.isSome_iff_exists.mp h0
    simp only [spinTryLoop, ht]
    have h2 : ∀ j, j < b → (Store.lookup (cand (i + 1 + j)) tickets).isSome := by
      intro j hj
      have := h (j + 1) (by omega)
      rwa [show i + (j + 1) = i + 1 + j by omega] at this
    exact ih (i + 1) h2

theorem spinTryLoop_first_free (cand : ℕ → ℕ) (now : ℕ) (d : SpinData)
    (tickets : Store ℕ RolexTicket) :
    ∀ (b i j : ℕ), j < b →
      (∀ j2, j2 < j → (Store.lookup (cand (i + j2)) tickets).isSome) →
      Store.lookup (cand (i + j)) tickets = none →
      spinTryLoop cand now d tickets b i =
        (some (cand (i + j)), Store.set (cand (i + j)) (reservedTicket now d) tickets) := by
  intro b
  induction b with
  | zero => intro i j hj; omega
  | succ b ih =>
    intro i j hj hprev hfree
    cases j with
    | zero =>
      rw [Nat.add_zero] at hfree
      simp only [spinTryLoop, hfree]
      rw [Nat.add_zero]
    | succ j =>
      have h0 := hprev 0 (Nat.succ_pos j)
      rw [Nat.add_zero] at h0
      obtain ⟨t, ht⟩ := Option.isSome_iff_exists.mp h0
      simp only [spinTryLoop, ht]
      have h2 : ∀ j2, j2 < j → (Store.lookup (cand (i + 1 + j2)) tickets).isSome := by
        intro j2 hj2
        have := hprev (j2 + 1) (by omega)
        rwa [show i + (j2 + 1) = i + 1 + j2 by omega] at this
      have h3 : Store.lookup (cand (i + 1 + j)) tickets = none := by
        rwa [show i + (j + 1) = i + 1 + j by omega] at hfree
      have := ih (i + 1) j (by omega) h2 h3
      rwa [show i + 1 + j = i + (j + 1) by omega] at this

theorem spinTryLoop_spec (cand : ℕ → ℕ) (now : ℕ) (d : SpinData)
    (tickets : Store ℕ RolexTicket) :
    ∀ (b i : ℕ),
      spinTryLoop cand now d tickets b i = (none, tickets) ∨
      ∃ k, Store.lookup k tickets = none ∧
        spinTryLoop cand now d tickets b i =
          (some k, Store.set k (reservedTicket now d) tickets) := by
  intro b
  induction b with
  | zero => intro i; left; rfl
  | succ b ih =>
    intro i
    cases ht : Store.lookup (cand i) tickets with
    | some t =>
      rcases ih (i + 1) with h | ⟨k, hk, h⟩
      · left; simpa only [spinTryLoop, ht] using h
      · right; exact ⟨k, hk, by simpa only [spinTryLoop, ht] using h⟩
    | none =>
      right
      exact ⟨cand i, ht, by simp only [spinTryLoop, ht]⟩



/-- C3: the Ticket Allocator makes at most `2N` attempts (`N = 650`).  Each
probe's candidate `Math.floor(Math.random()*N)+1` lies in `[1, N]`; the first
probe whose key is absent wins, the transactional insert creates the
reservation there, and that key is returned to the caller; if every probe in
the `2N` budget hits an occupied key the caller gets the resource-exhausted
(sold out) failure with the store untouched. -/
theorem c3_allocator_two_n_random_probe (rand : ℕ → ℚ) (hr : ∀ i, 0 ≤ rand i ∧ rand i < 1)
    (now : ℕ) (d : SpinData) (s : St)
    (hname : d.name ≠ "") (hemail : d.email ≠ "") (hphone : d.phone ≠ "") :
    (∀ i, 1 ≤ jsRandomTicket (rand i) ∧ jsRandomTicket (rand i) ≤ TOTAL_TICKETS) ∧
    (∀ j, j < TOTAL_TICKETS * 2 →
      (∀ j2, j2 < j → (Store.lookup (jsRandomTicket (rand j2)) s.rolexTickets).isSome) →
      Store.lookup (jsRandomTicket (rand j)) s.rolexTickets = none →
      createSpinPaymentIntent (fun i => jsRandomTicket (rand i)) now true d s =
        (.ok (jsRandomTicket (rand j)),
         { s with rolexTickets :=
             Store.set (jsRandomTicket (rand j)) (reservedTicket now d) s.rolexTickets })) ∧
    ((∀ j, j < TOTAL_TICKETS * 2 →
        (Store.lookup (jsRandomTicket (rand j)) s.rolexTickets).isSome) →
      ∀ gw, createSpinPaymentIntent (fun i => jsRandomTicket (rand i)) now gw d s =
        (.error .resourceExhausted, s)) := by
  have hval : ¬(d.name = "" ∨ d.email = "" ∨ d.phone = "") := by
    push_neg
    exact ⟨hname, hemail, hphone⟩
  refine ⟨fun i => jsRandomTicket_mem (hr i).1 (hr i).2, ?_, ?_⟩
  · intro j hj hprev hfree
    have hloop := spinTryLoop_first_free (fun i => jsRandomTicket (rand i)) now d
      s.rolexTickets (TOTAL_TICKETS * 2) 0 j hj
      (by intro j2 hj2; simpa using hprev j2 hj2)
      (by simpa using hfree)
    simp only [Nat.zero_add] at hloop
    simp only [createSpinPaymentIntent, if_neg hval, hloop]
    simp
  · intro hall gw
    have hloop := spinTryLoop_exhausted (fun i => jsRandomTicket (rand i)) now d
      s.rolexTickets (TOTAL_TICKETS * 2) 0
      (by intro j hj; simpa using hall j hj)
    simp only [createSpinPaymentIntent, if_neg hval, hloop]



theorem claimLoop_spec (cand : ℕ → ℕ) (now : ℕ) (uid userName : String)
    (tickets : Store ℕ RolexTicket) (claims : Store String UserClaim) :
    ∀ (b i : ℕ),
      claimLoop cand now uid userName tickets claims b i = (none, (tickets, claims)) ∨
      ∃ k, Store.lookup k tickets = none ∧
        claimLoop cand now uid userName tickets claims b i =
          (some k, (Store.set k (claimedTicket now uid userName) tickets,
                    Store.set uid ⟨true, some k, some now, some userName⟩ claims)) := by
  intro b
  induction b with
  | zero => intro i; left; rfl
  | succ b ih =>
    intro i
    cases ht : Store.lookup (cand i) tickets with
    | some t =>
      rcases ih (i + 1) with h | ⟨k, hk, h⟩
      · left; simpa only [claimLoop, ht] using h
      · right; exact ⟨k, hk, by simpa only [claimLoop, ht] using h⟩
    | none =>
      right
      exact ⟨cand i, ht, by simp only [claimLoop, ht]⟩

/-- C4: at most one record exists per ticket-number key (well-formedness is
preserved by both creating operations), both the paid reservation
(`createSpinPaymentIntent`) and the free claim (`claimSpinTicket`) only ever
insert at a key that the same transaction checked to be absent, and a record
that exists at a key before either operation is still there, unchanged,
afterwards — never replaced by a new reservation. -/
theorem c4_no_reservation_replacement (cand : ℕ → ℕ) (now : ℕ) (gw : Bool) (d : SpinData)
    (nm : Option String) (uid : String) (s : St) :
    (∀ k r, Store.lookup k s.rolexTickets = some r →
      Store.lookup k ((createSpinPaymentIntent cand now gw d s).2).rolexTickets = some r ∧
      Store.lookup k ((claimSpinTicket cand now (some uid) nm s).2).rolexTickets = some r) ∧
    (∀ k, (createSpinPaymentIntent cand now gw d s).1 = .ok k →
      Store.lookup k s.rolexTickets = none) ∧
    (∀ k, (claimSpinTicket cand now (some uid) nm s).1 = .ok k →
      Store.lookup k s.rolexTickets = none) ∧
    (Store.WF s.rolexTickets →
      Store.WF ((createSpinPaymentIntent cand now gw d s).2).rolexTickets ∧
      Store.WF ((claimSpinTicket cand now (some uid) nm s).2).rolexTickets) := by
  have hc : ∀ p : Except SpinErr ℕ × St,
      p = createSpinPaymentIntent cand now gw d s →
      (p.2.rolexTickets = s.rolexTickets ∧ (∀ k, p.1 ≠ .ok k)) ∨
      (∃ k0, Store.lookup k0 s.rolexTickets = none ∧
        (∀ k, p.1 = .ok k → k = k0) ∧
        (p.2.rolexTickets = Store.set k0 (reservedTicket now d) s.rolexTickets ∨
         p.2.rolexTickets =
           Store.erase k0 (Store.set k0 (reservedTicket now d) s.rolexTickets))) := by
    intro p hp
    by_cases hval : d.name = "" ∨ d.email = "" ∨ d.phone = ""
    · left
      simp only [createSpinPaymentIntent, if_pos hval] at hp
      subst hp
      exact ⟨rfl, by intro k h; exact Except.noConfusion h⟩
    · rcases spinTryLoop_spec cand now d s.rolexTickets (TOTAL_TICKETS * 2) 0 with hloop | ⟨k0, hk0, hloop⟩
      · left
        simp only [createSpinPaymentIntent, if_neg hval, hloop] at hp
        subst hp
        exact ⟨rfl, by intro k h; exact Except.noConfusion h⟩
      · right
        refine ⟨k0, hk0, ?_, ?_⟩
        · intro k h
          simp only [createSpinPaymentIntent, if_neg hval, hloop] at hp
          subst hp
          cases gw with
          | true => simpa using h.symm
          | false => simp at h
        · simp only [createSpinPaymentIntent, if_neg hval, hloop] at hp
          subst hp
          cases gw with
          | true => left; rfl
          | false => right; rfl
  have hcl : ∀ p : Except ClaimErr ℕ × St,
      p = claimSpinTicket cand now (some uid) nm s →
      (p.2.rolexTickets = s.rolexTickets ∧ (∀ k, p.1 ≠ .ok k)) ∨
      (∃ k0, Store.lookup k0 s.rolexTickets = none ∧
        (∀ k, p.1 = .ok k → k = k0) ∧
        p.2.rolexTickets = Store.set k0 (claimedTicket now uid ((strTruthy nm).getD "Anonymous Claim")) s.rolexTickets) := by
    intro p hp
    by_cases halready : (((s.userClaims.lookup uid).map (fun c => c.freeSpinClaimed)).getD false) = true
    · left
      simp only [claimSpinTicket, halready, if_true] at hp
      subst hp
      exact ⟨rfl, by intro k h; exact Except.noConfusion h⟩
    · have halready2 : (((s.userClaims.lookup uid).map (fun c => c.freeSpinClaimed)).getD false) = false := by
        simpa using halready
      rcases claimLoop_spec cand now uid ((strTruthy nm).getD "Anonymous Claim")
          s.rolexTickets s.userClaims (TOTAL_TICKETS * 2) 0 with hloop | ⟨k0, hk0, hloop⟩
      · left
        simp only [claimSpinTicket, halready2, hloop] at hp
        subst hp
        exact ⟨rfl, by intro k h; exact Except.noConfusion h⟩
      · right
        refine ⟨k0, hk0, ?_, ?_⟩
        · intro k h
          simp only [claimSpinTicket, halready2, hloop] at hp
          subst hp
          simpa using h.symm
        · simp only [claimSpinTicket, halready2, hloop] at hp
          subst hp
          rfl
  refine ⟨?_, ?_, ?_, ?_⟩
  · intro k r hk
    constructor
    · rcases hc _ rfl with ⟨he, _⟩ | ⟨k0, hk0, _, he | he⟩
      · rw [he, hk]
      · rw [he]
        have hne : k0 ≠ k := fun hkk => by rw [hkk, hk] at hk0; exact Option.noConfusion hk0
        rw [Store.lookup_set_ne hne, hk]
      · rw [he]
        have hne : k0 ≠ k := fun hkk => by rw [hkk, hk] at hk0; exact Option.noConfusion hk0
        rw [Store.lookup_erase_ne hne, Store.lookup_set_ne hne, hk]
    · rcases hcl _ rfl with ⟨he, _⟩ | ⟨k0, hk0, _, he⟩
      · rw [he, hk]
      · rw [he]
        have hne : k0 ≠ k := fun hkk => by rw [hkk, hk] at hk0; exact Option.noConfusion hk0
        rw [Store.lookup_set_ne hne, hk]
  · intro k hok
    rcases hc _ rfl with ⟨_, hno⟩ | ⟨k0, hk0, huniq, _⟩
    · exact absurd hok (hno k)
    · rw [huniq k hok]; exact hk0
  · intro k hok
    rcases hcl _ rfl with ⟨_, hno⟩ | ⟨k0, hk0, huniq, _⟩
    · exact absurd hok (hno k)
    · rw [huniq k hok]; exact hk0
  · intro hwf
    constructor
    · rcases hc _ rfl with ⟨he, _⟩ | ⟨k0, _, _, he | he⟩
      · rw [he]; exact hwf
      · rw [he]; exact Store.wf_set hwf _ _
      · rw [he]; exact Store.wf_erase (Store.wf_set hwf _ _) _
    · rcases hcl _ rfl with ⟨he, _⟩ | ⟨k0, _, _, he⟩
      · rw [he]; exact hwf
      · rw [he]; exact Store.wf_set hwf _ _



/-- C9: when the allocator succeeded at key `k` but the gateway's
intent-creation call fails, the handler's catch block deletes the
just-created reservation before surfacing the internal error: afterwards no
record exists at `k` and every other key is exactly as before the call. -/
theorem c9_failed_intent_rolls_back_reservation (cand : ℕ → ℕ) (now : ℕ) (d : SpinData) (s : St) (k : ℕ) (t2 : Store ℕ RolexTicket)
    (hwf : Store.WF s.rolexTickets)
    (hval : ¬(d.name = "" ∨ d.email = "" ∨ d.phone = ""))
    (hloop : spinTryLoop cand now d s.rolexTickets (TOTAL_TICKETS * 2) 0 = (some k, t2)) :
    createSpinPaymentIntent cand now false d s =
      (.error .internalErr, { s with rolexTickets := Store.erase k t2 }) ∧
    Store.lookup k ((createSpinPaymentIntent cand now false d s).2).rolexTickets = none ∧
    ∀ k2, k2 ≠ k →
      Store.lookup k2 ((createSpinPaymentIntent cand now false d s).2).rolexTickets =
        Store.lookup k2 s.rolexTickets := by
  rcases spinTryLoop_spec cand now d s.rolexTickets (TOTAL_TICKETS * 2) 0 with h | ⟨k0, hk0, h⟩
  · rw [h] at hloop
    exact absurd (congrArg Prod.fst hloop) (by simp)
  · rw [h] at hloop
    have hkk : k0 = k := by
      have := congrArg Prod.fst hloop
      simpa using this
    subst hkk
    have ht2 : t2 = Store.set k0 (reservedTicket now d) s.rolexTickets := by
      have := congrArg Prod.snd hloop
      simpa using this.symm
    subst ht2
    have heq : createSpinPaymentIntent cand now false d s =
        (.error .internalErr,
         { s with rolexTickets :=
             Store.erase k0 (Store.set k0 (reservedTicket now d) s.rolexTickets) }) := by
      simp only [createSpinPaymentIntent, if_neg hval, h]
      rfl
    refine ⟨heq, ?_, ?_⟩
    · rw [heq]
      exact Store.lookup_erase_self k0 _ (Store.wf_set hwf _ _)
    · intro k2 hk2
      rw [heq]
      have hne : k0 ≠ k2 := fun he => hk2 he.symm
      simp only
      rw [Store.lookup_erase_ne hne, Store.lookup_set_ne hne]

/-- C10: each authenticated user gets at most one free spin ticket.  If the
caller's `user_claims` document already has `freeSpinClaimed = true`, the
call fails with failed-precondition and writes nothing; on success the claimed
ticket record (at a previously-absent key) and the caller's
`freeSpinClaimed` flag with the claimed ticket number are both set by the
winning transaction, and any later call by the same user fails with
failed-precondition, again writing nothing. -/
theorem c10_one_free_claim_per_user (cand cand2 : ℕ → ℕ) (now now2 : ℕ) (uid : String)
    (nm nm2 : Option String) (s : St) :
    ((∃ uc, Store.lookup uid s.userClaims = some uc ∧ uc.freeSpinClaimed = true) →
      claimSpinTicket cand now (some uid) nm s = (.error .failedPrecondition, s)) ∧
    (∀ k s1, claimSpinTicket cand now (some uid) nm s = (.ok k, s1) →
      Store.lookup k s.rolexTickets = none ∧
      Store.lookup k s1.rolexTickets =
        some (claimedTicket now uid ((strTruthy nm).getD "Anonymous Claim")) ∧
      Store.lookup uid s1.userClaims =
        some ⟨true, some k, some now, some ((strTruthy nm).getD "Anonymous Claim")⟩ ∧
      claimSpinTicket cand2 now2 (some uid) nm2 s1 = (.error .failedPrecondition, s1)) := by
  have hguard : ∀ (c3 : ℕ → ℕ) (n3 : ℕ) (nm3 : Option String) (s3 : St),
      (∃ uc, Store.lookup uid s3.userClaims = some uc ∧ uc.freeSpinClaimed = true) →
      claimSpinTicket c3 n3 (some uid) nm3 s3 = (.error .failedPrecondition, s3) := by
    intro c3 n3 nm3 s3 ⟨uc, huc, hflag⟩
    have : (((s3.userClaims.lookup uid).map (fun c => c.freeSpinClaimed)).getD false) = true := by
      rw [huc]
      simpa using hflag
    simp only [claimSpinTicket, this, if_true]
  refine ⟨hguard cand now nm s, ?_⟩
  intro k s1 h
  rcases claimLoop_spec cand now uid ((strTruthy nm).getD "Anonymous Claim")
      s.rolexTickets s.userClaims (TOTAL_TICKETS * 2) 0 with hloop | ⟨k0, hk0, hloop⟩
  · by_cases halready : (((s.userClaims.lookup uid).map (fun c => c.freeSpinClaimed)).getD false) = true
    · simp only [claimSpinTicket, halready, if_true] at h
      exact absurd (congrArg Prod.fst h) (by simp)
    · have halready2 : (((s.userClaims.lookup uid).map (fun c => c.freeSpinClaimed)).getD false) = false := by
        simpa using halready
      simp only [claimSpinTicket, halready2, hloop] at h
      exact absurd (congrArg Prod.fst h) (by simp)
  · by_cases halready : (((s.userClaims.lookup uid).map (fun c => c.freeSpinClaimed)).getD false) = true
    · simp only [claimSpinTicket, halready, if_true] at h
      exact absurd (congrArg Prod.fst h) (by simp)
    · have halready2 : (((s.userClaims.lookup uid).map (fun c => c.freeSpinClaimed)).getD false) = false := by
        simpa using halready
      simp only [claimSpinTicket, halready2, hloop] at h
      have hkk : k0 = k := by simpa using congrArg Prod.fst h
      have hs1 := congrArg Prod.snd h
      simp only at hs1
      refine ⟨hkk ▸ hk0, ?_, ?_, ?_⟩
      · rw [← hs1, ← hkk]
        exact Store.lookup_set_self _ _ _
      · rw [← hs1, ← hkk]
        exact Store.lookup_set_self _ _ _
      · refine hguard cand2 now2 nm2 s1
          ⟨⟨true, some k0, some now, some ((strTruthy nm).getD "Anonymous Claim")⟩, ?_, rfl⟩
        rw [← hs1]
        exact Store.lookup_set_self _ _ _



def exSpinData : SpinData :=
  { name := "Zed Q", email := "z@example.com", phone := "5559", referral := none }

def exCand : ℕ → ℕ := fun i => if i = 0 then 3 else 7

def exStSpin : St :=
  { rolexTickets := [(3, reservedTicket 1 exSpinData)], rolexEntries := [],
    nextRolexEntryId := 0, splitThePotTickets := [], nextPotId := 0,
    paymentIntents := [], donationIntents := [], referrers := [], userClaims := [],
    raffleTotals := ⟨0, 0⟩, rolexTotals := ⟨0, 0⟩, donationTotals := ⟨0⟩ }

theorem c3_allocator_two_n_random_probe_witness :
    (1 ≤ jsRandomTicket ((fun _ => (0 : ℚ)) 0) ∧
      jsRandomTicket ((fun _ => (0 : ℚ)) 0) ≤ TOTAL_TICKETS) ∧
    createSpinPaymentIntent (fun i => jsRandomTicket ((fun _ => (0 : ℚ)) i)) 5 true exSpinData exStSpin =
      (.ok (jsRandomTicket ((fun _ => (0 : ℚ)) 0)), { exStSpin with rolexTickets := Store.set (jsRandomTicket ((fun _ => (0 : ℚ)) 0)) (reservedTicket 5 exSpinData) exStSpin.rolexTickets }) := by
  have h := c3_allocator_two_n_random_probe (fun _ => (0 : ℚ)) (fun i => ⟨le_refl 0, by norm_num⟩) 5 exSpinData exStSpin
    (by decide) (by decide) (by decide)
  refine ⟨h.1 0, h.2.1 0 (by norm_num [TOTAL_TICKETS]) (fun j2 hj2 => absurd hj2 (by omega)) ?_⟩
  norm_num [jsRandomTicket, TOTAL_TICKETS, exStSpin, exSpinData, reservedTicket, Store.lookup]

theorem c4_no_reservation_replacement_witness :
    Store.lookup 3 ((createSpinPaymentIntent exCand 5 true exSpinData exStSpin).2).rolexTickets =
      some (reservedTicket 1 exSpinData) ∧
    Store.lookup 3 ((claimSpinTicket exCand 5 (some "u9") (some "Moe") exStSpin).2).rolexTickets =
      some (reservedTicket 1 exSpinData) ∧
    Store.WF ((createSpinPaymentIntent exCand 5 true exSpinData exStSpin).2).rolexTickets := by
  have h := c4_no_reservation_replacement exCand 5 true exSpinData (some "Moe") "u9" exStSpin
  exact ⟨(h.1 3 _ (by decide)).1, (h.1 3 _ (by decide)).2, (h.2.2.2 (by decide)).1⟩

theorem c9_failed_intent_rolls_back_reservation_witness :
    createSpinPaymentIntent exCand 5 false exSpinData exStSpin =
      (.error .internalErr, { exStSpin with rolexTickets := Store.erase 7 (Store.set 7 (reservedTicket 5 exSpinData) exStSpin.rolexTickets) }) ∧
    Store.lookup 7 ((createSpinPaymentIntent exCand 5 false exSpinData exStSpin).2).rolexTickets = none ∧
    Store.lookup 3 ((createSpinPaymentIntent exCand 5 false exSpinData exStSpin).2).rolexTickets =
      Store.lookup 3 exStSpin.rolexTickets := by
  have h := c9_failed_intent_rolls_back_reservation exCand 5 exSpinData exStSpin 7
    (Store.set 7 (reservedTicket 5 exSpinData) exStSpin.rolexTickets)
    (by decide) (by decide) (by decide)
  exact ⟨h.1, h.2.1, h.2.2 3 (by decide)⟩

theorem c10_one_free_claim_per_user_witness :
    Store.lookup 7 exStSpin.rolexTickets = none ∧
    Store.lookup 7 ((claimSpinTicket exCand 5 (some "u9") (some "Moe") exStSpin).2).rolexTickets =
      some (claimedTicket 5 "u9" ((strTruthy (some "Moe")).getD "Anonymous Claim")) ∧
    Store.lookup "u9" ((claimSpinTicket exCand 5 (some "u9") (some "Moe") exStSpin).2).userClaims =
      some ⟨true, some 7, some 5, some ((strTruthy (some "Moe")).getD "Anonymous Claim")⟩ ∧
    claimSpinTicket exCand 9 (some "u9") (some "Moe")
        ((claimSpinTicket exCand 5 (some "u9") (some "Moe") exStSpin).2) =
      (.error .failedPrecondition, (claimSpinTicket exCand 5 (some "u9") (some "Moe") exStSpin).2) := by
  have h := (c10_one_free_claim_per_user exCand exCand 5 9 "u9" (some "Moe") (some "Moe") exStSpin).2 7
    ((claimSpinTicket exCand 5 (some "u9") (some "Moe") exStSpin).2) (by decide)
  exact ⟨h.1, h.2.1, h.2.2.1, h.2.2.2⟩


/-! ## C6: fee-excluded base amount at every write site -/

theorem finishWebhook_raffleTotals (now : ℕ) (piId : String) (isDon : Bool) (sb : St) :
    ((finishWebhook now piId isDon sb).2).raffleTotals = sb.raffleTotals := by
  unfold finishWebhook
  split <;> split <;> rfl

theorem finishWebhook_rolexTotals (now : ℕ) (piId : String) (isDon : Bool) (sb : St) :
    ((finishWebhook now piId isDon sb).2).rolexTotals = sb.rolexTotals := by
  unfold finishWebhook
  split <;> split <;> rfl

/-- Webhook1 raffle branch: the referrer and global deltas are the cleaned
base amount from the metadata, and the ticket count delta. -/
theorem webhook1_raffle_deltas (now : ℕ) (pi : PaymentIntent) (s : St)
    (uid : String) (r : Referrer)
    (hty : pi.metadata.entryType = "raffle")
    (hflag : webhookProcessedFlag pi s = false)
    (hres : resolveReferrer s.referrers pi.metadata.referrerRefId = some (uid, r))
    (huid : Store.lookup uid s.referrers = some r) :
    ((stripeWebhook1 now pi s).2).raffleTotals =
      ⟨s.raffleTotals.totalTickets + (cleanTicketCountM pi.metadata.ticketsBought : ℤ),
       s.raffleTotals.totalAmount + cleanQ (cleanAmountM pi.metadata.baseAmount)⟩ ∧
    Store.lookup uid ((stripeWebhook1 now pi s).2).referrers =
      some { r with
        totalTickets := r.totalTickets + (cleanTicketCountM pi.metadata.ticketsBought : ℤ),
        totalAmount := r.totalAmount + cleanQ (cleanAmountM pi.metadata.baseAmount) } := by
  simp only [stripeWebhook1, hty, hflag]
  simp only [hres]
  constructor
  · simp [finishWebhook_raffleTotals]
  · simp [finishWebhook_referrers, incReferrer, huid, Store.lookup_set_self]

/-- Webhook1 rolex_raffle branch deltas. -/
theorem webhook1_rolex_raffle_deltas (now : ℕ) (pi : PaymentIntent) (s : St)
    (uid : String) (r : Referrer)
    (hty : pi.metadata.entryType = "rolex_raffle")
    (hflag : webhookProcessedFlag pi s = false)
    (hres : resolveReferrer s.referrers pi.metadata.referrerRefId = some (uid, r))
    (huid : Store.lookup uid s.referrers = some r) :
    ((stripeWebhook1 now pi s).2).rolexTotals =
      ⟨s.rolexTotals.totalTicketsSold + (cleanTicketCountM pi.metadata.ticketsBought : ℤ),
       s.rolexTotals.totalAmount + cleanQ (cleanAmountM pi.metadata.baseAmount)⟩ ∧
    Store.lookup uid ((stripeWebhook1 now pi s).2).referrers =
      some { r with
        rolexTicketsTotal := r.rolexTicketsTotal + (cleanTicketCountM pi.metadata.ticketsBought : ℤ),
        totalAmount := r.totalAmount + cleanQ (cleanAmountM pi.metadata.baseAmount) } := by
  simp only [stripeWebhook1, hty, hflag]
  simp only [hres]
  constructor
  · simp [finishWebhook_rolexTotals]
  · simp [finishWebhook_referrers, incReferrer, huid, Store.lookup_set_self]

/-- Webhook2 legacy rolex branch: the referrer totalAmount delta is the
gateway-charged amount `paymentIntent.amount / 100`, not a base amount. -/
theorem webhook2_rolex_deltas (now : ℕ) (pi : PaymentIntent) (s : St)
    (uid : String) (r : Referrer) (tn : ℕ) (t : RolexTicket)
    (hty : pi.metadata.entryType = "rolex")
    (hflag : webhookProcessedFlag2 pi s = false)
    (htn : pi.metadata.ticketNumber = some tn)
    (hticket : Store.lookup tn s.rolexTickets = some t)
    (hres : resolveReferrer s.referrers pi.metadata.referrerRefId = some (uid, r))
    (huid : Store.lookup uid s.referrers = some r) :
    Store.lookup uid ((stripeWebhook2 now pi s).2).referrers =
      some { r with
        rolexTicketsTotal := r.rolexTicketsTotal + 1,
        totalAmount := r.totalAmount + (pi.amountCents : ℚ) / 100 } := by
  simp only [stripeWebhook2, hty, hflag, htn]
  simp only [hticket, hres]
  simp [finishWebhook_referrers, incReferrer, huid, Store.lookup_set_self]



/-- The `amountForSaleRecord` computed by the first webhook revision for a
`donation` intent (lines 1050-1052 and the final sanity round at 1059): the
cleaned `metadata.amount`, falling back to the charged amount when falsy. -/
def donationAmountForSaleRecord (pi : PaymentIntent) : ℚ :=
  cleanQ (jsOrQ (cleanAmountM pi.metadata.amount) (cleanQ ((pi.amountCents : ℚ) / 100)))

theorem finishWebhook_donationTotals (now : ℕ) (piId : String) (isDon : Bool) (sb : St) :
    ((finishWebhook now piId isDon sb).2).donationTotals = sb.donationTotals := by
  unfold finishWebhook
  split <;> split <;> rfl

/-- Webhook1 donation branch: the global and referrer monetary deltas are the
cleaned `metadata.amount` of the donation intent (falling back to the charged
amount when that field is falsy), per lines 1050-1052 and 1169-1180. -/
theorem webhook1_donation_deltas (now : ℕ) (pi : PaymentIntent) (s : St)
    (uid : String) (r : Referrer) (d : DonationPI)
    (hty : pi.metadata.entryType = "donation")
    (hflag : webhookProcessedFlag pi s = false)
    (hdoc : Store.lookup pi.id s.donationIntents = some d)
    (hres : resolveReferrer s.referrers pi.metadata.referrerRefId = some (uid, r))
    (huid : Store.lookup uid s.referrers = some r) :
    ((stripeWebhook1 now pi s).2).donationTotals =
      ⟨s.donationTotals.totalAmount + donationAmountForSaleRecord pi⟩ ∧
    Store.lookup uid ((stripeWebhook1 now pi s).2).referrers =
      some { r with totalAmount := r.totalAmount + donationAmountForSaleRecord pi } := by
  simp only [stripeWebhook1, hty, hflag]
  simp only [hdoc, hres]
  constructor
  · simp [finishWebhook_donationTotals, donationAmountForSaleRecord]
  · simp [finishWebhook_referrers, incReferrer, huid, Store.lookup_set_self,
      donationAmountForSaleRecord]

/-- By construction of `createDonationPaymentIntent`, the donation
`amountForSaleRecord` of a successfully created donation intent equals the
gateway-charged amount `amountCents / 100`: the submitted amount is charged
in full and round-tripped through `metadata.amount`. -/
theorem createDonation_amount_eq_charged (piId : String) (a : Option ℚ)
    (nm em ph : String) (rl : Option String) (s0 : St)
    (pi2 : PaymentIntent) (s2 : St)
    (hok : createDonationPaymentIntent piId a nm em ph rl s0 = .ok (pi2, s2))
    (hnn : 0 ≤ cleanAmountM a) :
    donationAmountForSaleRecord pi2 = (pi2.amountCents : ℚ) / 100 := by
  unfold createDonationPaymentIntent at hok
  by_cases hval : cleanAmountM a = 0 ∨ nm = "" ∨ em = "" ∨ ph = ""
  · rw [if_pos hval] at hok
    exact Except.noConfusion hok
  · rw [if_neg hval] at hok
    injection hok with hp
    have hpi := congrArg Prod.fst hp
    subst hpi
    push_neg at hval
    obtain ⟨n, hn⟩ := isCent_cleanAmountM a
    have hmeta : cleanAmountM (some (cleanAmountM a)) = cleanAmountM a :=
      cleanQ_of_isCent ⟨n, hn⟩
    have hne : cleanAmountM a ≠ 0 := hval.1
    have hround : jsRound (cleanAmountM a * 100) = n := by
      rw [hn]
      unfold jsRound
      rw [div_mul_cancel₀ _ (by norm_num : (100 : ℚ) ≠ 0)]
      rw [add_comm, Int.floor_add_int]
      norm_num
    have hn0 : 0 ≤ n := by
      rw [hn] at hnn
      rcases div_nonneg_iff.mp hnn with ⟨h1, _⟩ | ⟨_, h2⟩
      · exact_mod_cast h1
      · exfalso
        have h3 : (0 : ℚ) < 100 := by norm_num
        linarith
    unfold donationAmountForSaleRecord
    simp only [hmeta]
    rw [jsOrQ, if_neg hne, cleanQ_of_isCent ⟨n, hn⟩, hround, hn]
    congr 1
    exact_mod_cast (Int.toNat_of_nonneg hn0).symm


def exStTicket5 : St :=
  { rolexTickets := [(5, reservedTicket 1 exSpinData)], rolexEntries := [],
    nextRolexEntryId := 0, splitThePotTickets := [], nextPotId := 0,
    paymentIntents := [("pi_rolex_1", { status := "created", webhookProcessed := false, updatedAt := none })],
    donationIntents := [],
    referrers := [("u1", { refId := "JaneD", name := "Jane D", totalTickets := 0,
                           rolexTicketsTotal := 0, totalAmount := 0 })],
    userClaims := [],
    raffleTotals := ⟨0, 0⟩, rolexTotals := ⟨0, 0⟩, donationTotals := ⟨0⟩ }

/-- C6 as stated by the spec, at one write site: any delta the webhook
applies to this referrer's `totalAmount` is either nothing or the
fee-excluded base amount of the sale. -/
def c6BaseDeltaClaim (handler : ℕ → PaymentIntent → St → WResp × St)
    (now : ℕ) (pi : PaymentIntent) (s : St) (uid : String) : Prop :=
  ∀ r r2, Store.lookup uid s.referrers = some r →
    Store.lookup uid ((handler now pi s).2).referrers = some r2 →
    r2.totalAmount = r.totalAmount ∨
    r2.totalAmount = r.totalAmount + cleanQ (cleanAmountM pi.metadata.baseAmount)

/-- C6 counterexample: in the second webhook revision's legacy rolex branch,
a referrer's `totalAmount` delta for a sale charged $155 (base $150) is the
gateway-charged $155 — neither zero nor the fee-excluded base. -/
theorem c6_base_amount_counterexample :
    ¬ c6BaseDeltaClaim stripeWebhook2 5 exPiRolex exStTicket5 "u1" := by
  intro h
  unfold c6BaseDeltaClaim at h
  have hlk := webhook2_rolex_deltas 5 exPiRolex exStTicket5 "u1"
    { refId := "JaneD", name := "Jane D", totalTickets := 0, rolexTicketsTotal := 0, totalAmount := 0 }
    5 (reservedTicket 1 exSpinData)
    (by decide) (by decide) (by decide) (by decide) (by decide) (by decide)
  have h2 := h { refId := "JaneD", name := "Jane D", totalTickets := 0,
                 rolexTicketsTotal := 0, totalAmount := 0 } _ (by decide) hlk
  simp only at h2
  rcases h2 with h2 | h2 <;>
    norm_num [cleanQ, cleanAmountM, jsRound, exPiRolex, exMetaRolex] at h2

/-- C6 (amended): at the primary webhook's `raffle` and `rolex_raffle` write
sites every global and referrer monetary delta is the cleaned fee-excluded
base amount from the metadata; the second webhook revision's legacy `rolex`
write site instead applies `paymentIntent.amount / 100` — the gateway-charged
fee-inclusive amount — to the referrer's `totalAmount`; and the donation
write site applies the cleaned `metadata.amount` (falling back to the charged
amount), which for every intent built by `createDonationPaymentIntent` equals
the charged amount by construction — the submitted donation is charged in
full, so no fee-excluded/fee-inclusive distinction exists on that path. -/
theorem c6_base_amount_except_legacy_rolex (now : ℕ) (pi : PaymentIntent) (s : St) (uid : String) (r : Referrer)
    (hres : resolveReferrer s.referrers pi.metadata.referrerRefId = some (uid, r))
    (huid : Store.lookup uid s.referrers = some r) :
    (pi.metadata.entryType = "raffle" → webhookProcessedFlag pi s = false →
      ((stripeWebhook1 now pi s).2).raffleTotals =
        ⟨s.raffleTotals.totalTickets + (cleanTicketCountM pi.metadata.ticketsBought : ℤ),
         s.raffleTotals.totalAmount + cleanQ (cleanAmountM pi.metadata.baseAmount)⟩ ∧
      Store.lookup uid ((stripeWebhook1 now pi s).2).referrers =
        some { r with
          totalTickets := r.totalTickets + (cleanTicketCountM pi.metadata.ticketsBought : ℤ),
          totalAmount := r.totalAmount + cleanQ (cleanAmountM pi.metadata.baseAmount) }) ∧
    (pi.metadata.entryType = "rolex_raffle" → webhookProcessedFlag pi s = false →
      ((stripeWebhook1 now pi s).2).rolexTotals =
        ⟨s.rolexTotals.totalTicketsSold + (cleanTicketCountM pi.metadata.ticketsBought : ℤ),
         s.rolexTotals.totalAmount + cleanQ (cleanAmountM pi.metadata.baseAmount)⟩ ∧
      Store.lookup uid ((stripeWebhook1 now pi s).2).referrers =
        some { r with
          rolexTicketsTotal := r.rolexTicketsTotal + (cleanTicketCountM pi.metadata.ticketsBought : ℤ),
          totalAmount := r.totalAmount + cleanQ (cleanAmountM pi.metadata.baseAmount) }) ∧
    (pi.metadata.entryType = "rolex" → webhookProcessedFlag2 pi s = false →
      ∀ tn t, pi.metadata.ticketNumber = some tn → Store.lookup tn s.rolexTickets = some t →
      Store.lookup uid ((stripeWebhook2 now pi s).2).referrers =
        some { r with
          rolexTicketsTotal := r.rolexTicketsTotal + 1,
          totalAmount := r.totalAmount + (pi.amountCents : ℚ) / 100 }) ∧
    (pi.metadata.entryType = "donation" → webhookProcessedFlag pi s = false →
      ∀ d, Store.lookup pi.id s.donationIntents = some d →
      ((stripeWebhook1 now pi s).2).donationTotals =
        ⟨s.donationTotals.totalAmount + donationAmountForSaleRecord pi⟩ ∧
      Store.lookup uid ((stripeWebhook1 now pi s).2).referrers =
        some { r with totalAmount := r.totalAmount + donationAmountForSaleRecord pi }) ∧
    (∀ piId a nm em ph rl s0 pi2 s2,
      createDonationPaymentIntent piId a nm em ph rl s0 = .ok (pi2, s2) →
      0 ≤ cleanAmountM a →
      donationAmountForSaleRecord pi2 = (pi2.amountCents : ℚ) / 100) := by
  refine ⟨?_, ?_, ?_, ?_, ?_⟩
  · intro hty hflag
    exact webhook1_raffle_deltas now pi s uid r hty hflag hres huid
  · intro hty hflag
    exact webhook1_rolex_raffle_deltas now pi s uid r hty hflag hres huid
  · intro hty hflag tn t htn hticket
    exact webhook2_rolex_deltas now pi s uid r tn t hty hflag htn hticket hres huid
  · intro hty hflag d hdoc
    exact webhook1_donation_deltas now pi s uid r d hty hflag hdoc hres huid
  · intro piId a nm em ph rl s0 pi2 s2 hok hnn
    exact createDonation_amount_eq_charged piId a nm em ph rl s0 pi2 s2 hok hnn

def exRefDon : Referrer :=
  { refId := "JaneD", name := "Jane D", totalTickets := 0, rolexTicketsTotal := 0,
    totalAmount := 0 }

/-- A donation payment intent as `createDonationPaymentIntent` builds it for a
submitted amount of $100 with referral code `JaneD`. -/
def exPiDon : PaymentIntent :=
  { id := "pi_don_1", amountCents := (jsRound (cleanAmountM (some 100) * 100)).toNat,
    metadata := { name := "Dana", email := "d@x.com", phone := "557",
                  ticketsBought := none, baseAmount := none,
                  amount := some (cleanAmountM (some 100)),
                  referrerRefId := some "JaneD", ticketNumber := none,
                  entryType := "donation", sourceApp := some "YDE Donation" } }

def exDonDoc : DonationPI :=
  { amount := cleanAmountM (some 100), status := "created",
    referrerRefId := some "JaneD", webhookProcessed := false,
    amountPaid := none, sourceApp := "YDE Donation", updatedAt := none }

def exStDon0 : St :=
  { rolexTickets := [], rolexEntries := [], nextRolexEntryId := 0,
    splitThePotTickets := [], nextPotId := 0, paymentIntents := [],
    donationIntents := [],
    referrers := [("u1", exRefDon)], userClaims := [],
    raffleTotals := ⟨0, 0⟩, rolexTotals := ⟨0, 0⟩, donationTotals := ⟨0⟩ }

def exStDon1 : St :=
  { exStDon0 with donationIntents := [("pi_don_1", exDonDoc)] }

theorem c6_base_amount_except_legacy_rolex_witness :
    (Store.lookup "u1" ((stripeWebhook2 5 exPiRolex exStTicket5).2).referrers =
      some { refId := "JaneD", name := "Jane D", totalTickets := 0,
             rolexTicketsTotal := 0 + 1, totalAmount := 0 + (15500 : ℚ) / 100 }) ∧
    ((stripeWebhook1 7 exPiDon exStDon1).2).donationTotals =
      ⟨0 + donationAmountForSaleRecord exPiDon⟩ ∧
    donationAmountForSaleRecord exPiDon = (exPiDon.amountCents : ℚ) / 100 := by
  have hok : createDonationPaymentIntent "pi_don_1" (some 100) "Dana" "d@x.com" "557"
      (some "JaneD") exStDon0 = .ok (exPiDon, exStDon1) := by
    unfold createDonationPaymentIntent
    rw [if_neg (by
      push_neg
      exact ⟨by norm_num [cleanAmountM, cleanQ, jsRound], by decide, by decide, by decide⟩)]
    rfl
  refine ⟨?_, ?_, ?_⟩
  · have h := (c6_base_amount_except_legacy_rolex 5 exPiRolex exStTicket5 "u1"
      { refId := "JaneD", name := "Jane D", totalTickets := 0, rolexTicketsTotal := 0, totalAmount := 0 }
      (by decide) (by decide)).2.2.1 (by decide) (by decide) 5 (reservedTicket 1 exSpinData)
      (by decide) (by decide)
    simpa [exPiRolex] using h
  · exact ((c6_base_amount_except_legacy_rolex 7 exPiDon exStDon1 "u1" exRefDon
      rfl rfl).2.2.2.1 rfl rfl exDonDoc rfl).1
  · exact (c6_base_amount_except_legacy_rolex 7 exPiDon exStDon1 "u1" exRefDon
      rfl rfl).2.2.2.2 "pi_don_1" (some 100) "Dana" "d@x.com" "557" (some "JaneD")
      exStDon0 exPiDon exStDon1 hok (by norm_num [cleanAmountM, cleanQ, jsRound])


/-! ## C7: recalculation job rebuilds totals from scratch -/

theorem isCent_sum (l : List ℚ) (h : ∀ x ∈ l, IsCent x) : IsCent l.sum := by
  induction l with
  | nil => simpa using isCent_zero
  | cons a rest ih =>
    rw [List.sum_cons]
    exact isCent_add (h a (by simp)) (ih (fun x hx => h x (by simp [hx])))

/-! Specification-side from-scratch sums. -/

def potTicketsSpec (entries : List PotEntry) : ℕ :=
  (entries.map (fun e => cleanTicketCountM (some e.ticketCount))).sum

def potAmountSpec (entries : List PotEntry) : ℚ :=
  (entries.map (fun e => cleanQ (jsOrQ e.amountPaid 0))).sum

def rolexEntrySnap (entries : List RolexEntry) (rid : String) : List RolexEntry :=
  (entries.filter rolexStatusOk).filter (fun e => strTruthy e.referrerRefId = some rid)

def rolexAmountSpec (entries : List RolexEntry) (rid : String) : ℚ :=
  ((rolexEntrySnap entries rid).map (fun e => cleanQ (jsOrQ e.amountPaid 0))).sum

def rolexTicketsSpec (entries : List RolexEntry) (rid : String) : ℕ :=
  ((rolexEntrySnap entries rid).map (fun e => cleanTicketCountM (some (e.ticketsBought : ℤ)))).sum

def donationAmountSpec (docs : List DonationPI) : ℚ :=
  (docs.map (fun d => cleanQ (jsOrQ d.amount 0))).sum

theorem isCent_potAmountSpec (entries : List PotEntry) : IsCent (potAmountSpec entries) := by
  refine isCent_sum _ ?_
  intro x hx
  simp only [List.mem_map] at hx
  obtain ⟨e, _, he⟩ := hx
  exact he ▸ isCent_cleanQ _

theorem potTotalsFold_go (entries : List PotEntry) :
    ∀ (t : ℕ) (a : ℚ), IsCent a →
      entries.foldl (fun acc e =>
        (acc.1 + cleanTicketCountM (some e.ticketCount),
         cleanQ (acc.2 + cleanQ (jsOrQ e.amountPaid 0)))) (t, a) =
      (t + potTicketsSpec entries, a + potAmountSpec entries) := by
  induction entries with
  | nil => intro t a _; simp [potTicketsSpec, potAmountSpec]
  | cons e rest ih =>
    intro t a ha
    have hstep : cleanQ (a + cleanQ (jsOrQ e.amountPaid 0)) = a + cleanQ (jsOrQ e.amountPaid 0) :=
      cleanQ_of_isCent (isCent_add ha (isCent_cleanQ _))
    simp only [List.foldl_cons, hstep]
    rw [ih _ _ (isCent_add ha (isCent_cleanQ _))]
    simp only [potTicketsSpec, potAmountSpec, List.map_cons, List.sum_cons]
    rw [Nat.add_assoc, add_assoc]

theorem potTotalsFold_spec (entries : List PotEntry) :
    potTotalsFold entries = (potTicketsSpec entries, potAmountSpec entries) := by
  have h := potTotalsFold_go entries 0 0 isCent_zero
  simpa [potTotalsFold] using h

theorem donationAmountFold_go (docs : List DonationPI) :
    ∀ (a : ℚ), IsCent a →
      docs.foldl (fun acc d => cleanQ (acc + cleanQ (jsOrQ d.amount 0))) a =
      a + donationAmountSpec docs := by
  induction docs with
  | nil => intro a _; simp [donationAmountSpec]
  | cons d rest ih =>
    intro a ha
    have hstep : cleanQ (a + cleanQ (jsOrQ d.amount 0)) = a + cleanQ (jsOrQ d.amount 0) :=
      cleanQ_of_isCent (isCent_add ha (isCent_cleanQ _))
    simp only [List.foldl_cons, hstep]
    rw [ih _ (isCent_add ha (isCent_cleanQ _))]
    simp only [donationAmountSpec, List.map_cons, List.sum_cons]
    ring

theorem donationAmountFold_spec (docs : List DonationPI) :
    donationAmountFold docs = donationAmountSpec docs := by
  have h := donationAmountFold_go docs 0 isCent_zero
  simpa [donationAmountFold] using h

/-- The value the group-by map holds for one RefId. -/
def getAgg (m : Store String Agg) (rid : String) : Agg := (m.lookup rid).getD ⟨0, 0⟩

theorem rolexAgg_go (rid : String) (l : List RolexEntry) :
    ∀ (m : Store String Agg), IsCent (getAgg m rid).amount →
      getAgg (l.foldl rolexAggStep m) rid =
        ⟨(getAgg m rid).amount +
          ((l.filter (fun e => strTruthy e.referrerRefId = some rid)).map
            (fun e => cleanQ (jsOrQ e.amountPaid 0))).sum,
         (getAgg m rid).tickets +
          ((l.filter (fun e => strTruthy e.referrerRefId = some rid)).map
            (fun e => cleanTicketCountM (some (e.ticketsBought : ℤ)))).sum⟩ := by
  induction l with
  | nil => intro m _; simp
  | cons e rest ih =>
    intro m hm
    simp only [List.foldl_cons]
    cases hrid : strTruthy e.referrerRefId with
    | none =>
      have hstep : rolexAggStep m e = m := by
        unfold rolexAggStep
        rw [hrid]
      rw [hstep, ih m hm]
      simp [List.filter_cons, hrid]
    | some rid2 =>
      by_cases heq : rid2 = rid
      · subst heq
        have hstep : rolexAggStep m e =
            Store.set rid2 ⟨cleanQ ((getAgg m rid2).amount + cleanQ (jsOrQ e.amountPaid 0)),
                            (getAgg m rid2).tickets + cleanTicketCountM (some (e.ticketsBought : ℤ))⟩ m := by
          unfold rolexAggStep
          rw [hrid]
          rfl
        rw [hstep]
        have hclean : cleanQ ((getAgg m rid2).amount + cleanQ (jsOrQ e.amountPaid 0)) =
            (getAgg m rid2).amount + cleanQ (jsOrQ e.amountPaid 0) :=
          cleanQ_of_isCent (isCent_add hm (isCent_cleanQ _))
        have hget : getAgg (Store.set rid2
            ⟨cleanQ ((getAgg m rid2).amount + cleanQ (jsOrQ e.amountPaid 0)),
             (getAgg m rid2).tickets + cleanTicketCountM (some (e.ticketsBought : ℤ))⟩ m) rid2 =
            ⟨cleanQ ((getAgg m rid2).amount + cleanQ (jsOrQ e.amountPaid 0)),
             (getAgg m rid2).tickets + cleanTicketCountM (some (e.ticketsBought : ℤ))⟩ := by
          unfold getAgg
          rw [Store.lookup_set_self]
          rfl
        rw [ih _ (by rw [hget]; simpa [hclean] using isCent_add hm (isCent_cleanQ _))]
        rw [hget]
        simp [hclean, List.filter_cons, hrid, add_assoc, Nat.add_assoc]
      · have hstep : rolexAggStep m e =
            Store.set rid2 ⟨cleanQ ((getAgg m rid2).amount + cleanQ (jsOrQ e.amountPaid 0)),
                            (getAgg m rid2).tickets + cleanTicketCountM (some (e.ticketsBought : ℤ))⟩ m := by
          unfold rolexAggStep
          rw [hrid]
          rfl
        rw [hstep]
        have hget : getAgg (Store.set rid2
            ⟨cleanQ ((getAgg m rid2).amount + cleanQ (jsOrQ e.amountPaid 0)),
             (getAgg m rid2).tickets + cleanTicketCountM (some (e.ticketsBought : ℤ))⟩ m) rid =
            getAgg m rid := by
          unfold getAgg
          rw [Store.lookup_set_ne heq]
        rw [ih _ (by rw [hget]; exact hm), hget]
        have : ¬(strTruthy e.referrerRefId = some rid) := by
          rw [hrid]
          simp [heq]
        simp [List.filter_cons, this]
  
theorem rolexAggMap_getAgg (entries : List RolexEntry) (rid : String) :
    getAgg (rolexAggMap entries) rid =
      ⟨rolexAmountSpec entries rid, rolexTicketsSpec entries rid⟩ := by
  have h := rolexAgg_go rid (entries.filter rolexStatusOk) Store.empty
    (by simp [getAgg, Store.empty, Store.lookup]; exact isCent_zero)
  unfold rolexAggMap
  rw [h]
  simp [getAgg, Store.empty, Store.lookup, rolexAmountSpec, rolexTicketsSpec, rolexEntrySnap]



theorem lookup_some_mem {K V : Type} [DecidableEq K] {k : K} {v : V} {s : Store K V}
    (h : Store.lookup k s = some v) : (k, v) ∈ s := by
  induction s with
  | nil => exact absurd h (by simp [Store.lookup])
  | cons p rest ih =>
    obtain ⟨k2, v2⟩ := p
    by_cases h2 : k2 = k
    · subst h2
      rw [Store.lookup, if_pos rfl] at h
      rw [← Option.some_inj.mp h]
      exact List.mem_cons_self _ _
    · rw [Store.lookup, if_neg h2] at h
      exact List.mem_cons_of_mem _ (ih h)

theorem foldl_set_lookup_notmem {K V : Type} [DecidableEq K] (f : K → V → V)
    (l : List (K × V)) (acc : Store K V) (k : K)
    (h : ∀ p ∈ l, p.1 ≠ k) :
    Store.lookup k (l.foldl (fun st p => Store.set p.1 (f p.1 p.2) st) acc) =
      Store.lookup k acc := by
  induction l generalizing acc with
  | nil => rfl
  | cons p rest ih =>
    simp only [List.foldl_cons]
    rw [ih _ (fun q hq => h q (by simp [hq]))]
    exact Store.lookup_set_ne (h p (by simp)) _ _

theorem foldl_set_lookup {K V : Type} [DecidableEq K] (f : K → V → V)
    (l : List (K × V)) (hnd : (l.map Prod.fst).Nodup) (acc : Store K V)
    (k : K) (v : V) (hmem : (k, v) ∈ l) :
    Store.lookup k (l.foldl (fun st p => Store.set p.1 (f p.1 p.2) st) acc) =
      some (f k v) := by
  induction l generalizing acc with
  | nil => exact absurd hmem (by simp)
  | cons p rest ih =>
    obtain ⟨k0, v0⟩ := p
    simp only [List.map_cons, List.nodup_cons] at hnd
    simp only [List.foldl_cons]
    rcases List.mem_cons.mp hmem with hhead | htail
    · have hk : k = k0 := congrArg Prod.fst hhead
      have hv : v = v0 := congrArg Prod.snd hhead
      subst hk
      subst hv
      rw [foldl_set_lookup_notmem]
      · exact Store.lookup_set_self _ _ _
      · intro q hq he
        exact hnd.1 (he ▸ List.mem_map_of_mem Prod.fst hq)
    · exact ih hnd.2 _ htail


/-- The Split The Pot documents currently attributed to a referrer uid. -/
def potSnapFor (s : St) (uid : String) : List PotEntry :=
  (s.splitThePotTickets.map Prod.snd).filter (fun e => e.referrerUid = some uid)

/-- The donation documents that the rebuild counts for one RefId. -/
def donSnapFor (s : St) (rid : String) : List DonationPI :=
  (s.donationIntents.map Prod.snd).filter
    (fun d => d.referrerRefId = some rid && donationStatusOk d)

theorem rebuildOneReferrer_spec (s : St) (uid : String) (r : Referrer) :
    rebuildOneReferrer s (rolexAggMap (s.rolexEntries.map Prod.snd)) uid r =
      { r with
        totalTickets := (potTicketsSpec (potSnapFor s uid) : ℤ),
        rolexTicketsTotal := (rolexTicketsSpec (s.rolexEntries.map Prod.snd) r.refId : ℤ),
        totalAmount := cleanQ (potAmountSpec (potSnapFor s uid) +
          rolexAmountSpec (s.rolexEntries.map Prod.snd) r.refId +
          donationAmountSpec (donSnapFor s r.refId)) } := by
  have hagg := rolexAggMap_getAgg (s.rolexEntries.map Prod.snd) r.refId
  unfold getAgg at hagg
  simp only [rebuildOneReferrer]
  rw [hagg, potTotalsFold_spec, donationAmountFold_spec]
  simp [potSnapFor, donSnapFor]

theorem rebuildAllReferrerTotals_lookup (s : St) (hwf : Store.WF s.referrers)
    (uid : String) (r : Referrer) (h : Store.lookup uid s.referrers = some r) :
    Store.lookup uid (rebuildAllReferrerTotals s).referrers =
      some (rebuildOneReferrer s (rolexAggMap (s.rolexEntries.map Prod.snd)) uid r) := by
  unfold rebuildAllReferrerTotals
  exact foldl_set_lookup _ s.referrers hwf s.referrers uid r (lookup_some_mem h)

theorem recalcGlobalFold_go (entries : List PotEntry) :
    ∀ (t : ℤ) (a : ℚ), IsCent a →
      entries.foldl (fun acc e =>
        (acc.1 + (cleanTicketCountM (some e.ticketCount) : ℤ),
         cleanQ (acc.2 + cleanQ (jsOrQ e.amountPaid 0)))) (t, a) =
      (t + (potTicketsSpec entries : ℤ), a + potAmountSpec entries) := by
  induction entries with
  | nil => intro t a _; simp [potTicketsSpec, potAmountSpec]
  | cons e rest ih =>
    intro t a ha
    have hstep : cleanQ (a + cleanQ (jsOrQ e.amountPaid 0)) = a + cleanQ (jsOrQ e.amountPaid 0) :=
      cleanQ_of_isCent (isCent_add ha (isCent_cleanQ _))
    simp only [List.foldl_cons, hstep]
    rw [ih _ _ (isCent_add ha (isCent_cleanQ _))]
    simp only [potTicketsSpec, potAmountSpec, List.map_cons, List.sum_cons]
    simp [Nat.cast_add, add_assoc]

/-- C7: the recalculation job ignores every cached counter value: for any
prior state, the global `raffle_totals` document and every referrer's three
counter fields are overwritten with the from-scratch sums over the Sale Entry
collections alone — the plain summation of the per-entry cleaned amounts and
ticket counts (the code's running fold with per-step rounding equals that
summation because every rounded value is a whole number of cents). -/
theorem c7_recalculation_from_scratch (s : St) (hwf : Store.WF s.referrers) :
    ((recalculateRaffleTotals true s).2).raffleTotals =
      ⟨(potTicketsSpec (s.splitThePotTickets.map Prod.snd) : ℤ),
       potAmountSpec (s.splitThePotTickets.map Prod.snd)⟩ ∧
    ∀ uid r, Store.lookup uid s.referrers = some r →
      Store.lookup uid ((recalculateRaffleTotals true s).2).referrers =
        some { r with
          totalTickets := (potTicketsSpec (potSnapFor s uid) : ℤ),
          rolexTicketsTotal := (rolexTicketsSpec (s.rolexEntries.map Prod.snd) r.refId : ℤ),
          totalAmount := cleanQ (potAmountSpec (potSnapFor s uid) +
            rolexAmountSpec (s.rolexEntries.map Prod.snd) r.refId +
            donationAmountSpec (donSnapFor s r.refId)) } := by
  have hfold := recalcGlobalFold_go (s.splitThePotTickets.map Prod.snd) 0 0 isCent_zero
  simp only [zero_add] at hfold
  have hred : (recalculateRaffleTotals true s).2 =
      rebuildAllReferrerTotals { s with raffleTotals :=
        ⟨(potTicketsSpec (s.splitThePotTickets.map Prod.snd) : ℤ),
         potAmountSpec (s.splitThePotTickets.map Prod.snd)⟩ } := by
    simp only [recalculateRaffleTotals, hfold, Bool.not_true]
    rw [cleanQ_of_isCent (isCent_potAmountSpec _)]
    rfl
  rw [hred]
  constructor
  · rfl
  · intro uid r h
    rw [rebuildAllReferrerTotals_lookup
      { s with raffleTotals :=
        ⟨(potTicketsSpec (s.splitThePotTickets.map Prod.snd) : ℤ),
         potAmountSpec (s.splitThePotTickets.map Prod.snd)⟩ } hwf uid r h]
    rw [rebuildOneReferrer_spec]
    rfl



def exRolexEntry1 : RolexEntry :=
  { paymentIntentId := "p1", name := "Al B", firstName := "Al",
    email := "al@example.com", phoneNumber := "1", ticketsBought := 2, amountPaid := 300,
    chargedAmount := 310, status := "paid", timestamp := 0, sourceApp := "x",
    referrerRefId := some "JaneD", referrerUid := some "u1", updatedAt := none }

def exPotEntry1 : PotEntry :=
  { fullName := "Al B", firstName := "Al", phoneNumber := "1", email := "al@example.com",
    referrerRefId := some "JaneD", referrerUid := some "u1", referrerName := some "Jane D",
    amountPaid := 40, ticketCount := 4, paymentMethod := "Stripe", timestamp := 0,
    entryType := "stripe", sourceApp := "x", updatedAt := none }

def exPotEntry2 : PotEntry :=
  { fullName := "Cy D", firstName := "Cy", phoneNumber := "2", email := "cy@example.com",
    referrerRefId := none, referrerUid := none, referrerName := none,
    amountPaid := 20, ticketCount := 2, paymentMethod := "Stripe", timestamp := 0,
    entryType := "stripe", sourceApp := "x", updatedAt := none }

def exReferrerDrifted : Referrer :=
  { refId := "JaneD", name := "Jane D", totalTickets := 999, rolexTicketsTotal := 999,
    totalAmount := 12345 }

/-- Entries for two Split The Pot sales and one Rolex sale, with garbage in
every cached counter. -/
def exStRecalc : St :=
  { rolexTickets := [],
    rolexEntries := [(0, exRolexEntry1)],
    nextRolexEntryId := 1,
    splitThePotTickets := [(0, exPotEntry1), (1, exPotEntry2)],
    nextPotId := 2, paymentIntents := [], donationIntents := [],
    referrers := [("u1", exReferrerDrifted)],
    userClaims := [], raffleTotals := ⟨777, 8888⟩, rolexTotals := ⟨0, 0⟩, donationTotals := ⟨0⟩ }

theorem c7_recalculation_from_scratch_witness :
    Store.lookup "u1" ((recalculateRaffleTotals true exStRecalc).2).referrers =
      some { refId := "JaneD", name := "Jane D",
             totalTickets := (potTicketsSpec (potSnapFor exStRecalc "u1") : ℤ),
             rolexTicketsTotal := (rolexTicketsSpec (exStRecalc.rolexEntries.map Prod.snd) "JaneD" : ℤ),
             totalAmount := cleanQ (potAmountSpec (potSnapFor exStRecalc "u1") +
               rolexAmountSpec (exStRecalc.rolexEntries.map Prod.snd) "JaneD" +
               donationAmountSpec (donSnapFor exStRecalc "JaneD")) } ∧
    ((recalculateRaffleTotals true exStRecalc).2).raffleTotals =
      ⟨(potTicketsSpec (exStRecalc.splitThePotTickets.map Prod.snd) : ℤ),
       potAmountSpec (exStRecalc.splitThePotTickets.map Prod.snd)⟩ := by
  have h := c7_recalculation_from_scratch exStRecalc (by simp [Store.WF, Store.keys, exStRecalc])
  refine ⟨?_, h.1⟩
  have h2 := h.2 "u1" exReferrerDrifted (by decide)
  simpa using h2

/-! ## C8: bulk attribution transfer - skip-target no-op and idempotence -/


theorem applyUpdates_nil {V : Type} (store : Store ℕ V) : applyUpdates store [] = store := rfl

theorem applyUpdates_lookup_notmem {V : Type} (store : Store ℕ V) (ups : List (ℕ × V))
    (id : ℕ) (h : ∀ p ∈ ups, p.1 ≠ id) :
    Store.lookup id (applyUpdates store ups) = Store.lookup id store := by
  induction ups generalizing store with
  | nil => rfl
  | cons p rest ih =>
    simp only [applyUpdates, List.foldl_cons]
    have h2 := ih (Store.set p.1 p.2 store) (fun q hq => h q (by simp [hq]))
    simp only [applyUpdates] at h2
    rw [h2]
    exact Store.lookup_set_ne (h p (by simp)) _ _

theorem applyUpdates_lookup_or {V : Type} (Q : V → Prop) (store : Store ℕ V)
    (ups : List (ℕ × V)) (id : ℕ) (hQ : ∀ p ∈ ups, p.1 = id → Q p.2) :
    ∀ v, Store.lookup id (applyUpdates store ups) = some v →
      Q v ∨ Store.lookup id store = some v := by
  induction ups generalizing store with
  | nil => intro v hv; right; exact hv
  | cons p rest ih =>
    intro v hv
    simp only [applyUpdates, List.foldl_cons] at hv
    have h2 := ih (Store.set p.1 p.2 store) (fun q hq => hQ q (by simp [hq]))
    simp only [applyUpdates] at h2
    rcases h2 v hv with hq | hold
    · exact Or.inl hq
    · by_cases he : p.1 = id
      · rw [he, Store.lookup_set_self] at hold
        exact Or.inl (Option.some_inj.mp hold ▸ hQ p (by simp) he)
      · rw [Store.lookup_set_ne he] at hold
        exact Or.inr hold

theorem applyUpdates_lookup_of_mem {V : Type} (Q : V → Prop) (store : Store ℕ V)
    (ups : List (ℕ × V)) (id : ℕ) (hex : ∃ v, (id, v) ∈ ups)
    (hQ : ∀ p ∈ ups, p.1 = id → Q p.2) :
    ∀ v, Store.lookup id (applyUpdates store ups) = some v → Q v := by
  induction ups generalizing store with
  | nil => exact absurd hex (by simp)
  | cons p rest ih =>
    intro v hv
    simp only [applyUpdates, List.foldl_cons] at hv
    by_cases hex2 : ∃ w, (id, w) ∈ rest
    · have h2 := ih (Store.set p.1 p.2 store) hex2 (fun q hq => hQ q (by simp [hq]))
      simp only [applyUpdates] at h2
      exact h2 v hv
    · obtain ⟨w, hw⟩ := hex
      rcases List.mem_cons.mp hw with hhead | htail
      · have hid : p.1 = id := (congrArg Prod.fst hhead).symm
        have hno : ∀ q ∈ rest, q.1 ≠ id := by
          intro q hq he
          exact hex2 ⟨q.2, by rw [← he]; simpa using hq⟩
        have h3 : Store.lookup id (applyUpdates (Store.set p.1 p.2 store) rest) =
            Store.lookup id (Store.set p.1 p.2 store) :=
          applyUpdates_lookup_notmem _ _ _ hno
        simp only [applyUpdates] at h3
        rw [h3, hid, Store.lookup_set_self] at hv
        exact Option.some_inj.mp hv ▸ hQ p (by simp) hid
      · exact absurd ⟨w, htail⟩ hex2

theorem chunksOfGo_flatten {α : Type} (n : ℕ) :
    ∀ (fuel : ℕ) (l : List α), (chunksOfGo n fuel l).flatten = l := by
  intro fuel
  induction fuel with
  | zero =>
    intro l
    cases l with
    | nil => rfl
    | cons a rest => simp [chunksOfGo]
  | succ m ih =>
    intro l
    cases l with
    | nil => rfl
    | cons a rest =>
      simp only [chunksOfGo, List.flatten_cons, ih]
      exact List.take_append_drop n (a :: rest)

theorem chunksOf_flatten {α : Type} (n : ℕ) (hn : 0 < n) (l : List α) :
    (chunksOf n hn l).flatten = l :=
  chunksOfGo_flatten n l.length l
theorem salesXferStep_skip (now : ℕ) (refId tU tN : String)
    (store : Store ℕ PotEntry) (p : TransferAcc × List (ℕ × PotEntry)) (id : ℕ)
    (h : ∀ sale, Store.lookup id store = some sale → sale.referrerUid = some tU) :
    salesXferStep now refId tU tN store p id = p := by
  unfold salesXferStep
  rcases hl : Store.lookup id store with _ | sale
  · rfl
  · simp [h sale hl]

theorem salesFold_skip (now : ℕ) (refId tU tN : String) (store : Store ℕ PotEntry)
    (l : List ℕ)
    (h : ∀ id ∈ l, ∀ sale, Store.lookup id store = some sale → sale.referrerUid = some tU) :
    ∀ p, l.foldl (salesXferStep now refId tU tN store) p = p := by
  induction l with
  | nil => intro p; rfl
  | cons a rest ih =>
    intro p
    rw [List.foldl_cons, salesXferStep_skip now refId tU tN store p a
      (fun sale hs => h a (by simp) sale hs)]
    exact ih (fun id hid sale hs => h id (by simp [hid]) sale hs) p

theorem processSalesChunk_skip (now : ℕ) (refId tU tN : String)
    (chunk : List ℕ) (store : Store ℕ PotEntry) (acc : TransferAcc)
    (h : ∀ id ∈ chunk, ∀ sale, Store.lookup id store = some sale → sale.referrerUid = some tU) :
    processSalesChunk now refId tU tN chunk store acc = (store, acc) := by
  unfold processSalesChunk
  rw [salesFold_skip now refId tU tN store chunk h (acc, [])]
  rfl

theorem processSalesChunks_skip (now : ℕ) (refId tU tN : String)
    (chunks : List (List ℕ)) (store : Store ℕ PotEntry) (acc : TransferAcc)
    (h : ∀ c ∈ chunks, ∀ id ∈ c, ∀ sale,
      Store.lookup id store = some sale → sale.referrerUid = some tU) :
    processSalesChunks now refId tU tN chunks store acc = (store, acc) := by
  induction chunks with
  | nil => rfl
  | cons c rest ih =>
    simp only [processSalesChunks, List.foldl_cons]
    rw [processSalesChunk_skip now refId tU tN c store acc (h c (by simp))]
    exact ih (fun c2 hc2 => h c2 (by simp [hc2]))

/-- The rewritten sale queued by the transfer step (lines 2181-2190). -/
def salesXferUpd (now : ℕ) (refId tU tN : String) (sale : PotEntry) : PotEntry :=
  { sale with referrerRefId := some refId, referrerUid := some tU,
              referrerName := some tN, updatedAt := some now }

theorem salesXferStep_snd (now : ℕ) (refId tU tN : String) (store : Store ℕ PotEntry)
    (p : TransferAcc × List (ℕ × PotEntry)) (id : ℕ) :
    (salesXferStep now refId tU tN store p id).2 = p.2 ∨
    ∃ upd, (salesXferStep now refId tU tN store p id).2 = p.2 ++ [(id, upd)] ∧
      upd.referrerUid = some tU := by
  unfold salesXferStep
  rcases Store.lookup id store with _ | sale
  · exact Or.inl rfl
  · by_cases ht : sale.referrerUid = some tU
    · simp [ht]
    · exact Or.inr ⟨salesXferUpd now refId tU tN sale, by simp [ht, salesXferUpd], rfl⟩

theorem salesXferStep_append (now : ℕ) (refId tU tN : String) (store : Store ℕ PotEntry)
    (p : TransferAcc × List (ℕ × PotEntry)) (id : ℕ) (sale : PotEntry)
    (hl : Store.lookup id store = some sale) (ht : sale.referrerUid ≠ some tU) :
    (salesXferStep now refId tU tN store p id).2 =
      p.2 ++ [(id, salesXferUpd now refId tU tN sale)] := by
  unfold salesXferStep
  simp only [hl]
  simp [ht, salesXferUpd]

theorem salesFold_mono (now : ℕ) (refId tU tN : String) (store : Store ℕ PotEntry)
    (l : List ℕ) :
    ∀ (p0 : TransferAcc × List (ℕ × PotEntry)) (p : ℕ × PotEntry), p ∈ p0.2 →
      p ∈ (l.foldl (salesXferStep now refId tU tN store) p0).2 := by
  induction l with
  | nil => intro p0 p hp; exact hp
  | cons a rest ih =>
    intro p0 p hp
    rw [List.foldl_cons]
    refine ih _ p ?_
    rcases salesXferStep_snd now refId tU tN store p0 a with h1 | ⟨upd, h2, _⟩
    · rw [h1]; exact hp
    · rw [h2]; exact List.mem_append_left _ hp

theorem salesFold_target (now : ℕ) (refId tU tN : String) (store : Store ℕ PotEntry)
    (l : List ℕ) :
    ∀ (p0 : TransferAcc × List (ℕ × PotEntry)),
      (∀ p ∈ p0.2, p.2.referrerUid = some tU) →
      ∀ p ∈ (l.foldl (salesXferStep now refId tU tN store) p0).2,
        p.2.referrerUid = some tU := by
  induction l with
  | nil => intro p0 h p hp; exact h p hp
  | cons a rest ih =>
    intro p0 h p hp
    rw [List.foldl_cons] at hp
    refine ih _ ?_ p hp
    rcases salesXferStep_snd now refId tU tN store p0 a with h1 | ⟨upd, h2, hupd⟩
    · rw [h1]; exact h
    · rw [h2]
      intro q hq2
      rcases List.mem_append.mp hq2 with hq3 | hq4
      · exact h q hq3
      · rw [List.mem_singleton.mp hq4]
        exact hupd

theorem salesFold_cover (now : ℕ) (refId tU tN : String) (store : Store ℕ PotEntry)
    (l : List ℕ) :
    ∀ (p0 : TransferAcc × List (ℕ × PotEntry)) (id : ℕ), id ∈ l →
      ∀ sale, Store.lookup id store = some sale → sale.referrerUid ≠ some tU →
      ∃ v, (id, v) ∈ (l.foldl (salesXferStep now refId tU tN store) p0).2 := by
  induction l with
  | nil => intro p0 id hid; exact absurd hid (by simp)
  | cons a rest ih =>
    intro p0 id hid sale hl ht
    rw [List.foldl_cons]
    rcases List.mem_cons.mp hid with heq | hrest
    · subst heq
      refine ⟨salesXferUpd now refId tU tN sale, ?_⟩
      refine salesFold_mono now refId tU tN store rest _ _ ?_
      rw [salesXferStep_append now refId tU tN store p0 id sale hl ht]
      exact List.mem_append_right _ (by simp)
    · exact ih _ id hrest sale hl ht

theorem processSalesChunk_post_mem (now : ℕ) (refId tU tN : String)
    (chunk : List ℕ) (store : Store ℕ PotEntry) (acc : TransferAcc)
    (id : ℕ) (hid : id ∈ chunk) :
    ∀ sale2, Store.lookup id (processSalesChunk now refId tU tN chunk store acc).1 =
      some sale2 → sale2.referrerUid = some tU := by
  intro sale2 hl2
  unfold processSalesChunk at hl2
  have hQ : ∀ p ∈ (chunk.foldl (salesXferStep now refId tU tN store) (acc, [])).2,
      p.2.referrerUid = some tU :=
    salesFold_target now refId tU tN store chunk (acc, []) (by simp)
  rcases applyUpdates_lookup_or (fun v => v.referrerUid = some tU) store _ id
      (fun p hp _ => hQ p hp) sale2 hl2 with hq | hold
  · exact hq
  · by_cases ht : sale2.referrerUid = some tU
    · exact ht
    · obtain ⟨v, hv⟩ := salesFold_cover now refId tU tN store chunk (acc, []) id hid
        sale2 hold ht
      exact applyUpdates_lookup_of_mem (fun v => v.referrerUid = some tU) store _ id
        ⟨v, hv⟩ (fun p hp _ => hQ p hp) sale2 hl2

theorem processSalesChunk_post_pres (now : ℕ) (refId tU tN : String)
    (chunk : List ℕ) (store : Store ℕ PotEntry) (acc : TransferAcc)
    (id : ℕ)
    (h : ∀ sale, Store.lookup id store = some sale → sale.referrerUid = some tU) :
    ∀ sale2, Store.lookup id (processSalesChunk now refId tU tN chunk store acc).1 =
      some sale2 → sale2.referrerUid = some tU := by
  intro sale2 hl2
  unfold processSalesChunk at hl2
  have hQ : ∀ p ∈ (chunk.foldl (salesXferStep now refId tU tN store) (acc, [])).2,
      p.2.referrerUid = some tU :=
    salesFold_target now refId tU tN store chunk (acc, []) (by simp)
  rcases applyUpdates_lookup_or (fun v => v.referrerUid = some tU) store _ id
      (fun p hp _ => hQ p hp) sale2 hl2 with hq | hold
  · exact hq
  · exact h sale2 hold

theorem processSalesChunks_post_pres (now : ℕ) (refId tU tN : String)
    (chunks : List (List ℕ)) :
    ∀ (store : Store ℕ PotEntry) (acc : TransferAcc) (id : ℕ),
      (∀ sale, Store.lookup id store = some sale → sale.referrerUid = some tU) →
      ∀ sale2, Store.lookup id (processSalesChunks now refId tU tN chunks store acc).1 =
        some sale2 → sale2.referrerUid = some tU := by
  induction chunks with
  | nil => intro store acc id h sale2 hl2; exact h sale2 hl2
  | cons c rest ih =>
    intro store acc id h sale2 hl2
    simp only [processSalesChunks, List.foldl_cons] at hl2
    exact ih _ _ id
      (processSalesChunk_post_pres now refId tU tN c store acc id h) sale2 hl2

theorem processSalesChunks_post_mem (now : ℕ) (refId tU tN : String)
    (chunks : List (List ℕ)) :
    ∀ (store : Store ℕ PotEntry) (acc : TransferAcc) (id : ℕ),
      (∃ c ∈ chunks, id ∈ c) →
      ∀ sale2, Store.lookup id (processSalesChunks now refId tU tN chunks store acc).1 =
        some sale2 → sale2.referrerUid = some tU := by
  induction chunks with
  | nil => intro store acc id hex; exact absurd hex (by simp)
  | cons c rest ih =>
    intro store acc id hex sale2 hl2
    simp only [processSalesChunks, List.foldl_cons] at hl2
    rcases hex with ⟨c2, hc2, hid⟩
    rcases List.mem_cons.mp hc2 with heq | hrest
    · subst heq
      exact processSalesChunks_post_pres now refId tU tN rest _ _ id
        (processSalesChunk_post_mem now refId tU tN c2 store acc id hid) sale2 hl2
    · exact ih _ _ id ⟨c2, hrest, hid⟩ sale2 hl2

theorem set_of_lookup_none {K V : Type} [DecidableEq K] (k : K) (v : V) (s : Store K V)
    (h : Store.lookup k s = none) :
    Store.set k v s = List.append s [(k, v)] := by
  induction s with
  | nil => rfl
  | cons q rest ih =>
    obtain ⟨k2, v2⟩ := q
    by_cases hk : k2 = k
    · rw [Store.lookup, if_pos hk] at h
      exact absurd h (by simp)
    · rw [Store.lookup, if_neg hk] at h
      simp only [Store.set, if_neg hk]
      rw [ih h]
      rfl

theorem find_append_single {α : Type} (l : List α) (pred : α → Bool) (a : α)
    (ha : pred a = false) : (List.append l [a]).find? pred = l.find? pred := by
  induction l with
  | nil => simp [List.find?, ha]
  | cons b rest ih =>
    rw [show List.append (b :: rest) [a] = b :: List.append rest [a] from rfl]
    by_cases hb : pred b = true
    · rw [List.find?_cons_of_pos _ hb, List.find?_cons_of_pos _ hb]
    · rw [List.find?_cons_of_neg _ hb, List.find?_cons_of_neg _ hb, ih]

theorem find_set_preserve (refs : Store String Referrer) (uid : String) (r r2 : Referrer)
    (hl : Store.lookup uid refs = some r) (hid : r2.refId = r.refId) (hn : r2.name = r.name)
    (rid : String) :
    ((Store.set uid r2 refs).find? (fun p => p.2.refId = rid)).map (fun p => (p.1, p.2.name))
      = (refs.find? (fun p => p.2.refId = rid)).map (fun p => (p.1, p.2.name)) := by
  induction refs with
  | nil => exact absurd hl (by simp [Store.lookup])
  | cons q rest ih =>
    obtain ⟨k, v⟩ := q
    by_cases hk : k = uid
    · subst hk
      rw [Store.lookup, if_pos rfl] at hl
      obtain rfl : v = r := Option.some_inj.mp hl
      have hset : Store.set k r2 ((k, v) :: rest) = (k, r2) :: rest := by
        simp [Store.set]
      rw [hset]
      by_cases hc : v.refId = rid
      · rw [List.find?_cons_of_pos _ (by simp [hid, hc]),
          List.find?_cons_of_pos _ (by simp [hc])]
        simp [hn]
      · rw [List.find?_cons_of_neg _ (by simp [hid, hc]),
          List.find?_cons_of_neg _ (by simp [hc])]
    · rw [Store.lookup, if_neg hk] at hl
      simp only [Store.set, if_neg hk]
      by_cases hc : v.refId = rid
      · rw [List.find?_cons_of_pos _ (by simp [hc]), List.find?_cons_of_pos _ (by simp [hc])]
      · rw [List.find?_cons_of_neg _ (by simp [hc]), List.find?_cons_of_neg _ (by simp [hc])]
        exact ih hl

theorem find_incReferrer (refs : Store String Referrer) (uid : String) (dP dR : ℤ) (dA : ℚ)
    (rid : String) (hrid : rid ≠ "") :
    ((incReferrer refs uid dP dR dA).find? (fun p => p.2.refId = rid)).map
        (fun p => (p.1, p.2.name))
      = (refs.find? (fun p => p.2.refId = rid)).map (fun p => (p.1, p.2.name)) := by
  rcases hl : Store.lookup uid refs with _ | r
  · have h1 : incReferrer refs uid dP dR dA
        = Store.set uid ⟨"", "", dP, dR, dA⟩ refs := by
      unfold incReferrer
      rw [hl]
    rw [h1, set_of_lookup_none uid _ refs hl,
      find_append_single refs _ _ (by simp [Ne.symm hrid])]
  · have h1 : incReferrer refs uid dP dR dA
        = Store.set uid { r with totalTickets := r.totalTickets + dP, rolexTicketsTotal := r.rolexTicketsTotal + dR, totalAmount := r.totalAmount + dA } refs := by
      unfold incReferrer
      rw [hl]
    rw [h1]
    exact find_set_preserve refs uid r { r with totalTickets := r.totalTickets + dP, rolexTicketsTotal := r.rolexTicketsTotal + dR, totalAmount := r.totalAmount + dA } hl rfl rfl rid

theorem find_transferFold (isPot : Bool) (tU rid : String) (hrid : rid ≠ "")
    (l : List (String × Agg)) :
    ∀ refs : Store String Referrer,
      ((l.foldl (fun rs p =>
          if p.1 = tU then rs
          else if isPot then incReferrer rs p.1 (-(p.2.tickets : ℤ)) 0 (-p.2.amount)
          else incReferrer rs p.1 0 (-(p.2.tickets : ℤ)) (-p.2.amount)) refs).find?
        (fun p => p.2.refId = rid)).map (fun p => (p.1, p.2.name))
      = (refs.find? (fun p => p.2.refId = rid)).map (fun p => (p.1, p.2.name)) := by
  induction l with
  | nil => intro refs; rfl
  | cons p rest ih =>
    intro refs
    rw [List.foldl_cons]
    by_cases h1 : p.1 = tU
    · rw [if_pos h1]
      exact ih refs
    · rw [if_neg h1]
      cases isPot
      · rw [if_neg (by simp)]
        rw [ih (incReferrer refs p.1 0 (-(p.2.tickets : ℤ)) (-p.2.amount))]
        exact find_incReferrer refs p.1 0 (-(p.2.tickets : ℤ)) (-p.2.amount) rid hrid
      · rw [if_pos rfl]
        rw [ih (incReferrer refs p.1 (-(p.2.tickets : ℤ)) 0 (-p.2.amount))]
        exact find_incReferrer refs p.1 (-(p.2.tickets : ℤ)) 0 (-p.2.amount) rid hrid

theorem find_applyTransferTotals (isPot : Bool) (refs : Store String Referrer)
    (tU : String) (acc : TransferAcc) (rid : String) (hrid : rid ≠ "") :
    ((applyTransferTotals isPot refs tU acc).find? (fun p => p.2.refId = rid)).map
        (fun p => (p.1, p.2.name))
      = (refs.find? (fun p => p.2.refId = rid)).map (fun p => (p.1, p.2.name)) := by
  unfold applyTransferTotals
  by_cases hT : acc.targetTickets > 0
  · rw [if_pos hT]
    cases isPot
    · rw [if_neg (by simp)]
      rw [find_incReferrer _ tU 0 (acc.targetTickets : ℤ) acc.targetAmount rid hrid]
      exact find_transferFold false tU rid hrid acc.decMap refs
    · rw [if_pos rfl]
      rw [find_incReferrer _ tU (acc.targetTickets : ℤ) 0 acc.targetAmount rid hrid]
      exact find_transferFold true tU rid hrid acc.decMap refs
  · rw [if_neg hT]
    exact find_transferFold isPot tU rid hrid acc.decMap refs

theorem applyTransferTotals_empty (isPot : Bool) (refs : Store String Referrer)
    (tU : String) : applyTransferTotals isPot refs tU ⟨Store.empty, 0, 0⟩ = refs := rfl

theorem assignReferrerToSales_eq (now : ℕ) (ids : List ℕ) (rid : String) (s : St)
    (tU : String) (tr : Referrer) (hids : ids ≠ []) (hrid : rid ≠ "")
    (hfind : s.referrers.find? (fun p => p.2.refId = rid) = some (tU, tr)) :
    assignReferrerToSales true now ids rid s =
      (.ok (processSalesChunks now rid tU tr.name (chunksOf 400 (by norm_num) ids)
          s.splitThePotTickets ⟨Store.empty, 0, 0⟩).2.targetTickets,
       { s with
          splitThePotTickets := (processSalesChunks now rid tU tr.name
            (chunksOf 400 (by norm_num) ids) s.splitThePotTickets ⟨Store.empty, 0, 0⟩).1,
          referrers := applyTransferTotals true s.referrers tU
            (processSalesChunks now rid tU tr.name (chunksOf 400 (by norm_num) ids)
              s.splitThePotTickets ⟨Store.empty, 0, 0⟩).2 }) := by
  unfold assignReferrerToSales
  rw [if_neg (by simp), if_neg (by simp [hids, hrid]), hfind]

theorem assignReferrerToSales_noop (now : ℕ) (ids : List ℕ) (rid : String) (s : St)
    (tU : String) (tr : Referrer) (hids : ids ≠ []) (hrid : rid ≠ "")
    (hfind : s.referrers.find? (fun p => p.2.refId = rid) = some (tU, tr))
    (hall : ∀ id ∈ ids, ∀ sale, Store.lookup id s.splitThePotTickets = some sale →
      sale.referrerUid = some tU) :
    assignReferrerToSales true now ids rid s = (.ok 0, s) := by
  rw [assignReferrerToSales_eq now ids rid s tU tr hids hrid hfind]
  rw [processSalesChunks_skip now rid tU tr.name _ _ _
    (fun c hc id hid sale hs => hall id (by
      rw [← chunksOf_flatten 400 (by norm_num) ids]
      exact List.mem_flatten.mpr ⟨c, hc, hid⟩) sale hs)]
  rw [applyTransferTotals_empty]

theorem assignReferrerToSales_idem (now1 now2 : ℕ) (ids : List ℕ) (rid : String)
    (s : St) (n : ℕ)
    (h1 : (assignReferrerToSales true now1 ids rid s).1 = .ok n) :
    assignReferrerToSales true now2 ids rid (assignReferrerToSales true now1 ids rid s).2
      = (.ok 0, (assignReferrerToSales true now1 ids rid s).2) := by
  by_cases hids : ids = []
  · exfalso
    unfold assignReferrerToSales at h1
    rw [if_neg (by simp), if_pos (Or.inl hids)] at h1
    exact Except.noConfusion h1
  by_cases hrid : rid = ""
  · exfalso
    unfold assignReferrerToSales at h1
    rw [if_neg (by simp), if_pos (Or.inr hrid)] at h1
    exact Except.noConfusion h1
  rcases hfind : s.referrers.find? (fun p => p.2.refId = rid) with _ | q0
  · exfalso
    unfold assignReferrerToSales at h1
    rw [if_neg (by simp), if_neg (by simp [hids, hrid]), hfind] at h1
    exact Except.noConfusion h1
  obtain ⟨tU, tr⟩ := q0
  have heq := assignReferrerToSales_eq now1 ids rid s tU tr hids hrid hfind
  rw [heq]
  have hmap := find_applyTransferTotals true s.referrers tU
    (processSalesChunks now1 rid tU tr.name (chunksOf 400 (by norm_num) ids)
      s.splitThePotTickets ⟨Store.empty, 0, 0⟩).2 rid hrid
  rw [hfind] at hmap
  obtain ⟨q, hq1, hq2⟩ := Option.map_eq_some'.mp hmap
  have hq11 : q.1 = tU := by
    have := congrArg Prod.fst hq2
    simpa using this
  refine assignReferrerToSales_noop now2 ids rid _ q.1 q.2 hids hrid ?_ ?_
  · exact hq1
  · intro id hid sale2 hl2
    rw [hq11]
    refine processSalesChunks_post_mem now1 rid tU tr.name _ _ _ id ?_ sale2 hl2
    rw [← chunksOf_flatten 400 (by norm_num) ids] at hid
    exact List.mem_flatten.mp hid

/-- The rewritten rolex entry queued by the transfer step (lines 2330-2336). -/
def rolexXferUpd (now : ℕ) (refId tU : String) (entry : RolexEntry) : RolexEntry :=
  { entry with referrerRefId := some refId, referrerUid := some tU,
               updatedAt := some now }

theorem rolexXferStep_skip (now : ℕ) (refId tU : String)
    (store : Store ℕ RolexEntry) (p : TransferAcc × List (ℕ × RolexEntry)) (id : ℕ)
    (h : ∀ e, Store.lookup id store = some e → rolexStatusOk e = true →
      e.referrerUid = some tU) :
    rolexXferStep now refId tU store p id = p := by
  unfold rolexXferStep
  rcases hl : Store.lookup id store with _ | entry
  · rfl
  · by_cases hst : entry.status ≠ "paid" ∧ entry.status ≠ "converted"
    · simp [hst]
    · have htgt : entry.referrerUid = some tU := by
        refine h entry hl ?_
        simp only [rolexStatusOk, decide_eq_true_eq]
        push_neg at hst
        by_cases hp : entry.status = "paid"
        · exact Or.inl hp
        · exact Or.inr (hst hp)
      simp [hst, htgt]

theorem rolexFold_skip (now : ℕ) (refId tU : String) (store : Store ℕ RolexEntry)
    (l : List ℕ)
    (h : ∀ id ∈ l, ∀ e, Store.lookup id store = some e → rolexStatusOk e = true →
      e.referrerUid = some tU) :
    ∀ p, l.foldl (rolexXferStep now refId tU store) p = p := by
  induction l with
  | nil => intro p; rfl
  | cons a rest ih =>
    intro p
    rw [List.foldl_cons, rolexXferStep_skip now refId tU store p a
      (fun e hs => h a (by simp) e hs)]
    exact ih (fun id hid e hs => h id (by simp [hid]) e hs) p

theorem processRolexChunk_skip (now : ℕ) (refId tU : String)
    (chunk : List ℕ) (store : Store ℕ RolexEntry) (acc : TransferAcc)
    (h : ∀ id ∈ chunk, ∀ e, Store.lookup id store = some e → rolexStatusOk e = true →
      e.referrerUid = some tU) :
    processRolexChunk now refId tU chunk store acc = (store, acc) := by
  unfold processRolexChunk
  rw [rolexFold_skip now refId tU store chunk h (acc, [])]
  rfl

theorem processRolexChunks_skip (now : ℕ) (refId tU : String)
    (chunks : List (List ℕ)) (store : Store ℕ RolexEntry) (acc : TransferAcc)
    (h : ∀ c ∈ chunks, ∀ id ∈ c, ∀ e,
      Store.lookup id store = some e → rolexStatusOk e = true →
      e.referrerUid = some tU) :
    processRolexChunks now refId tU chunks store acc = (store, acc) := by
  induction chunks with
  | nil => rfl
  | cons c rest ih =>
    simp only [processRolexChunks, List.foldl_cons]
    rw [processRolexChunk_skip now refId tU c store acc (h c (by simp))]
    exact ih (fun c2 hc2 => h c2 (by simp [hc2]))

theorem rolexXferStep_snd (now : ℕ) (refId tU : String) (store : Store ℕ RolexEntry)
    (p : TransferAcc × List (ℕ × RolexEntry)) (id : ℕ) :
    (rolexXferStep now refId tU store p id).2 = p.2 ∨
    ∃ upd, (rolexXferStep now refId tU store p id).2 = p.2 ++ [(id, upd)] ∧
      upd.referrerUid = some tU := by
  unfold rolexXferStep
  rcases Store.lookup id store with _ | entry
  · exact Or.inl rfl
  · by_cases hst : entry.status ≠ "paid" ∧ entry.status ≠ "converted"
    · simp [hst]
    · by_cases ht : entry.referrerUid = some tU
      · simp [hst, ht]
      · exact Or.inr ⟨rolexXferUpd now refId tU entry, by simp [hst, ht, rolexXferUpd], rfl⟩

theorem rolexXferStep_append (now : ℕ) (refId tU : String) (store : Store ℕ RolexEntry)
    (p : TransferAcc × List (ℕ × RolexEntry)) (id : ℕ) (entry : RolexEntry)
    (hl : Store.lookup id store = some entry) (hstat : rolexStatusOk entry = true)
    (ht : entry.referrerUid ≠ some tU) :
    (rolexXferStep now refId tU store p id).2 =
      p.2 ++ [(id, rolexXferUpd now refId tU entry)] := by
  have hst : ¬(entry.status ≠ "paid" ∧ entry.status ≠ "converted") := by
    simp only [rolexStatusOk, decide_eq_true_eq] at hstat
    rintro ⟨h1, h2⟩
    rcases hstat with h3 | h3
    · exact h1 h3
    · exact h2 h3
  unfold rolexXferStep
  simp only [hl]
  simp [hst, ht, rolexXferUpd]

theorem rolexFold_mono (now : ℕ) (refId tU : String) (store : Store ℕ RolexEntry)
    (l : List ℕ) :
    ∀ (p0 : TransferAcc × List (ℕ × RolexEntry)) (p : ℕ × RolexEntry), p ∈ p0.2 →
      p ∈ (l.foldl (rolexXferStep now refId tU store) p0).2 := by
  induction l with
  | nil => intro p0 p hp; exact hp
  | cons a rest ih =>
    intro p0 p hp
    rw [List.foldl_cons]
    refine ih _ p ?_
    rcases rolexXferStep_snd now refId tU store p0 a with h1 | ⟨upd, h2, _⟩
    · rw [h1]; exact hp
    · rw [h2]; exact List.mem_append_left _ hp

theorem rolexFold_target (now : ℕ) (refId tU : String) (store : Store ℕ RolexEntry)
    (l : List ℕ) :
    ∀ (p0 : TransferAcc × List (ℕ × RolexEntry)),
      (∀ p ∈ p0.2, p.2.referrerUid = some tU) →
      ∀ p ∈ (l.foldl (rolexXferStep now refId tU store) p0).2,
        p.2.referrerUid = some tU := by
  induction l with
  | nil => intro p0 h p hp; exact h p hp
  | cons a rest ih =>
    intro p0 h p hp
    rw [List.foldl_cons] at hp
    refine ih _ ?_ p hp
    rcases rolexXferStep_snd now refId tU store p0 a with h1 | ⟨upd, h2, hupd⟩
    · rw [h1]; exact h
    · rw [h2]
      intro q hq2
      rcases List.mem_append.mp hq2 with hq3 | hq4
      · exact h q hq3
      · rw [List.mem_singleton.mp hq4]
        exact hupd

theorem rolexFold_cover (now : ℕ) (refId tU : String) (store : Store ℕ RolexEntry)
    (l : List ℕ) :
    ∀ (p0 : TransferAcc × List (ℕ × RolexEntry)) (id : ℕ), id ∈ l →
      ∀ e, Store.lookup id store = some e → rolexStatusOk e = true →
        e.referrerUid ≠ some tU →
      ∃ v, (id, v) ∈ (l.foldl (rolexXferStep now refId tU store) p0).2 := by
  induction l with
  | nil => intro p0 id hid; exact absurd hid (by simp)
  | cons a rest ih =>
    intro p0 id hid e hl hstat ht
    rw [List.foldl_cons]
    rcases List.mem_cons.mp hid with heq | hrest
    · subst heq
      refine ⟨rolexXferUpd now refId tU e, ?_⟩
      refine rolexFold_mono now refId tU store rest _ _ ?_
      rw [rolexXferStep_append now refId tU store p0 id e hl hstat ht]
      exact List.mem_append_right _ (by simp)
    · exact ih _ id hrest e hl hstat ht

theorem processRolexChunk_post_mem (now : ℕ) (refId tU : String)
    (chunk : List ℕ) (store : Store ℕ RolexEntry) (acc : TransferAcc)
    (id : ℕ) (hid : id ∈ chunk) :
    ∀ e2, Store.lookup id (processRolexChunk now refId tU chunk store acc).1 =
      some e2 → rolexStatusOk e2 = true → e2.referrerUid = some tU := by
  intro e2 hl2 hstat2
  unfold processRolexChunk at hl2
  have hQ : ∀ p ∈ (chunk.foldl (rolexXferStep now refId tU store) (acc, [])).2,
      p.2.referrerUid = some tU :=
    rolexFold_target now refId tU store chunk (acc, []) (by simp)
  rcases applyUpdates_lookup_or (fun v => v.referrerUid = some tU) store _ id
      (fun p hp _ => hQ p hp) e2 hl2 with hq | hold
  · exact hq
  · by_cases ht : e2.referrerUid = some tU
    · exact ht
    · obtain ⟨v, hv⟩ := rolexFold_cover now refId tU store chunk (acc, []) id hid
        e2 hold hstat2 ht
      exact applyUpdates_lookup_of_mem (fun v => v.referrerUid = some tU) store _ id
        ⟨v, hv⟩ (fun p hp _ => hQ p hp) e2 hl2

theorem processRolexChunk_post_pres (now : ℕ) (refId tU : String)
    (chunk : List ℕ) (store : Store ℕ RolexEntry) (acc : TransferAcc)
    (id : ℕ)
    (h : ∀ e, Store.lookup id store = some e → rolexStatusOk e = true →
      e.referrerUid = some tU) :
    ∀ e2, Store.lookup id (processRolexChunk now refId tU chunk store acc).1 =
      some e2 → rolexStatusOk e2 = true → e2.referrerUid = some tU := by
  intro e2 hl2 hstat2
  unfold processRolexChunk at hl2
  have hQ : ∀ p ∈ (chunk.foldl (rolexXferStep now refId tU store) (acc, [])).2,
      p.2.referrerUid = some tU :=
    rolexFold_target now refId tU store chunk (acc, []) (by simp)
  rcases applyUpdates_lookup_or (fun v => v.referrerUid = some tU) store _ id
      (fun p hp _ => hQ p hp) e2 hl2 with hq | hold
  · exact hq
  · exact h e2 hold hstat2

theorem processRolexChunks_post_pres (now : ℕ) (refId tU : String)
    (chunks : List (List ℕ)) :
    ∀ (store : Store ℕ RolexEntry) (acc : TransferAcc) (id : ℕ),
      (∀ e, Store.lookup id store = some e → rolexStatusOk e = true →
        e.referrerUid = some tU) →
      ∀ e2, Store.lookup id (processRolexChunks now refId tU chunks store acc).1 =
        some e2 → rolexStatusOk e2 = true → e2.referrerUid = some tU := by
  induction chunks with
  | nil => intro store acc id h e2 hl2; exact h e2 hl2
  | cons c rest ih =>
    intro store acc id h e2 hl2
    simp only [processRolexChunks, List.foldl_cons] at hl2
    exact ih _ _ id
      (processRolexChunk_post_pres now refId tU c store acc id h) e2 hl2

theorem processRolexChunks_post_mem (now : ℕ) (refId tU : String)
    (chunks : List (List ℕ)) :
    ∀ (store : Store ℕ RolexEntry) (acc : TransferAcc) (id : ℕ),
      (∃ c ∈ chunks, id ∈ c) →
      ∀ e2, Store.lookup id (processRolexChunks now refId tU chunks store acc).1 =
        some e2 → rolexStatusOk e2 = true → e2.referrerUid = some tU := by
  induction chunks with
  | nil => intro store acc id hex; exact absurd hex (by simp)
  | cons c rest ih =>
    intro store acc id hex e2 hl2
    simp only [processRolexChunks, List.foldl_cons] at hl2
    rcases hex with ⟨c2, hc2, hid⟩
    rcases List.mem_cons.mp hc2 with heq | hrest
    · subst heq
      exact processRolexChunks_post_pres now refId tU rest _ _ id
        (processRolexChunk_post_mem now refId tU c2 store acc id hid) e2 hl2
    · exact ih _ _ id ⟨c2, hrest, hid⟩ e2 hl2

theorem assignReferrerToRolexTickets_eq (now : ℕ) (ids : List ℕ) (rid : String) (s : St)
    (tU : String) (tr : Referrer) (hids : ids ≠ []) (hrid : rid ≠ "")
    (hfind : s.referrers.find? (fun p => p.2.refId = rid) = some (tU, tr)) :
    assignReferrerToRolexTickets true now ids rid s =
      (.ok (processRolexChunks now rid tU (chunksOf 400 (by norm_num) ids)
          s.rolexEntries ⟨Store.empty, 0, 0⟩).2.targetTickets,
       { s with
          rolexEntries := (processRolexChunks now rid tU
            (chunksOf 400 (by norm_num) ids) s.rolexEntries ⟨Store.empty, 0, 0⟩).1,
          referrers := applyTransferTotals false s.referrers tU
            (processRolexChunks now rid tU (chunksOf 400 (by norm_num) ids)
              s.rolexEntries ⟨Store.empty, 0, 0⟩).2 }) := by
  unfold assignReferrerToRolexTickets
  rw [if_neg (by simp), if_neg (by simp [hids, hrid]), hfind]

theorem assignReferrerToRolexTickets_noop (now : ℕ) (ids : List ℕ) (rid : String) (s : St)
    (tU : String) (tr : Referrer) (hids : ids ≠ []) (hrid : rid ≠ "")
    (hfind : s.referrers.find? (fun p => p.2.refId = rid) = some (tU, tr))
    (hall : ∀ id ∈ ids, ∀ e, Store.lookup id s.rolexEntries = some e →
      rolexStatusOk e = true → e.referrerUid = some tU) :
    assignReferrerToRolexTickets true now ids rid s = (.ok 0, s) := by
  rw [assignReferrerToRolexTickets_eq now ids rid s tU tr hids hrid hfind]
  rw [processRolexChunks_skip now rid tU _ _ _
    (fun c hc id hid e hs => hall id (by
      rw [← chunksOf_flatten 400 (by norm_num) ids]
      exact List.mem_flatten.mpr ⟨c, hc, hid⟩) e hs)]
  rw [applyTransferTotals_empty]

theorem assignReferrerToRolexTickets_idem (now1 now2 : ℕ) (ids : List ℕ) (rid : String)
    (s : St) (n : ℕ)
    (h1 : (assignReferrerToRolexTickets true now1 ids rid s).1 = .ok n) :
    assignReferrerToRolexTickets true now2 ids rid
        (assignReferrerToRolexTickets true now1 ids rid s).2
      = (.ok 0, (assignReferrerToRolexTickets true now1 ids rid s).2) := by
  by_cases hids : ids = []
  · exfalso
    unfold assignReferrerToRolexTickets at h1
    rw [if_neg (by simp), if_pos (Or.inl hids)] at h1
    exact Except.noConfusion h1
  by_cases hrid : rid = ""
  · exfalso
    unfold assignReferrerToRolexTickets at h1
    rw [if_neg (by simp), if_pos (Or.inr hrid)] at h1
    exact Except.noConfusion h1
  rcases hfind : s.referrers.find? (fun p => p.2.refId = rid) with _ | q0
  · exfalso
    unfold assignReferrerToRolexTickets at h1
    rw [if_neg (by simp), if_neg (by simp [hids, hrid]), hfind] at h1
    exact Except.noConfusion h1
  obtain ⟨tU, tr⟩ := q0
  have heq := assignReferrerToRolexTickets_eq now1 ids rid s tU tr hids hrid hfind
  rw [heq]
  have hmap := find_applyTransferTotals false s.referrers tU
    (processRolexChunks now1 rid tU (chunksOf 400 (by norm_num) ids)
      s.rolexEntries ⟨Store.empty, 0, 0⟩).2 rid hrid
  rw [hfind] at hmap
  obtain ⟨q, hq1, hq2⟩ := Option.map_eq_some'.mp hmap
  have hq11 : q.1 = tU := by
    have := congrArg Prod.fst hq2
    simpa using this
  refine assignReferrerToRolexTickets_noop now2 ids rid _ q.1 q.2 hids hrid ?_ ?_
  · exact hq1
  · intro id hid e2 hl2 hstat2
    rw [hq11]
    refine processRolexChunks_post_mem now1 rid tU _ _ _ id ?_ e2 hl2 hstat2
    rw [← chunksOf_flatten 400 (by norm_num) ids] at hid
    exact List.mem_flatten.mp hid

/-- A Split The Pot sale already attributed to the transfer target. -/
def exSaleA : PotEntry :=
  { fullName := "Al Cohen", firstName := "Al", phoneNumber := "555", email := "a@x.com",
    referrerRefId := some "JD", referrerUid := some "uJ", referrerName := some "Jane",
    amountPaid := 10, ticketCount := 1, paymentMethod := "stripe", timestamp := 1,
    entryType := "split_the_pot", sourceApp := "main", updatedAt := none }

/-- A Split The Pot sale attributed to a different referrer. -/
def exSaleB : PotEntry :=
  { fullName := "Bo Katz", firstName := "Bo", phoneNumber := "556", email := "b@x.com",
    referrerRefId := some "MK", referrerUid := some "u2", referrerName := some "Mo",
    amountPaid := 20, ticketCount := 1, paymentMethod := "stripe", timestamp := 2,
    entryType := "split_the_pot", sourceApp := "main", updatedAt := none }

def exRefJane : Referrer :=
  { refId := "JD", name := "Jane", totalTickets := 5, rolexTicketsTotal := 2,
    totalAmount := 350 }

def exRefMo : Referrer :=
  { refId := "MK", name := "Mo", totalTickets := 3, rolexTicketsTotal := 1,
    totalAmount := 100 }

/-- A paid rolex entry already attributed to the transfer target. -/
def exEntryA : RolexEntry :=
  { paymentIntentId := "pi1", name := "Al Cohen", firstName := "Al", email := "a@x.com",
    phoneNumber := "555", ticketsBought := 2, amountPaid := 500, chargedAmount := 515,
    status := "paid", timestamp := 1, sourceApp := "main", referrerRefId := some "JD",
    referrerUid := some "uJ", updatedAt := none }

/-- A pending rolex entry: outside the transfer's status filter. -/
def exEntryB : RolexEntry :=
  { paymentIntentId := "pi2", name := "Bo Katz", firstName := "Bo", email := "b@x.com",
    phoneNumber := "556", ticketsBought := 1, amountPaid := 250, chargedAmount := 258,
    status := "pending", timestamp := 2, sourceApp := "main", referrerRefId := none,
    referrerUid := none, updatedAt := none }

/-- A paid rolex entry attributed to a different referrer. -/
def exEntryC : RolexEntry :=
  { paymentIntentId := "pi3", name := "Cy Levi", firstName := "Cy", email := "c@x.com",
    phoneNumber := "557", ticketsBought := 3, amountPaid := 750, chargedAmount := 772,
    status := "paid", timestamp := 3, sourceApp := "main", referrerRefId := some "MK",
    referrerUid := some "u2", updatedAt := none }

/-- A state exercising the bulk transfer: two referrers, mixed attributions. -/
def exS8 : St :=
  { rolexTickets := [],
    rolexEntries := [(0, exEntryA), (1, exEntryB), (2, exEntryC)],
    nextRolexEntryId := 3,
    splitThePotTickets := [(0, exSaleA), (1, exSaleB)],
    nextPotId := 2, paymentIntents := [], donationIntents := [],
    referrers := [("uJ", exRefJane), ("u2", exRefMo)],
    userClaims := [], raffleTotals := ⟨0, 0⟩, rolexTotals := ⟨0, 0⟩, donationTotals := ⟨0⟩ }

/-- C8: In the bulk attribution transfer, a Sale Entry already attributed to
the target referrer contributes no increment to the target, no decrement to
any old referrer, and is not rewritten; consequently running the same transfer
call a second time with the same entry ids and target changes no referrer
totals.  Formally: (i) when every sale named by `ids` (every `paid`/`converted`
rolex entry, on the rolex side) is already attributed to the target, the call
returns 0 moved tickets and the state exactly unchanged; (ii) whenever a first
call succeeds, an immediate second call with the same ids and target returns
`ok 0` and leaves the first call's state exactly unchanged. -/
theorem c8_transfer_skip_target_and_idempotent
    (now1 now2 : ℕ) (ids : List ℕ) (rid : String) (s : St) (tU : String)
    (tr : Referrer) (n m : ℕ) :
    (ids ≠ [] → rid ≠ "" →
      s.referrers.find? (fun p => p.2.refId = rid) = some (tU, tr) →
      (∀ id ∈ ids, ∀ sale, Store.lookup id s.splitThePotTickets = some sale →
        sale.referrerUid = some tU) →
      assignReferrerToSales true now1 ids rid s = (.ok 0, s)) ∧
    ((assignReferrerToSales true now1 ids rid s).1 = .ok n →
      assignReferrerToSales true now2 ids rid
          (assignReferrerToSales true now1 ids rid s).2
        = (.ok 0, (assignReferrerToSales true now1 ids rid s).2)) ∧
    (ids ≠ [] → rid ≠ "" →
      s.referrers.find? (fun p => p.2.refId = rid) = some (tU, tr) →
      (∀ id ∈ ids, ∀ e, Store.lookup id s.rolexEntries = some e →
        rolexStatusOk e = true → e.referrerUid = some tU) →
      assignReferrerToRolexTickets true now1 ids rid s = (.ok 0, s)) ∧
    ((assignReferrerToRolexTickets true now1 ids rid s).1 = .ok m →
      assignReferrerToRolexTickets true now2 ids rid
          (assignReferrerToRolexTickets true now1 ids rid s).2
        = (.ok 0, (assignReferrerToRolexTickets true now1 ids rid s).2)) := by
  refine ⟨?_, ?_, ?_, ?_⟩
  · intro hids hrid hfind hall
    exact assignReferrerToSales_noop now1 ids rid s tU tr hids hrid hfind hall
  · intro h1
    exact assignReferrerToSales_idem now1 now2 ids rid s n h1
  · intro hids hrid hfind hall
    exact assignReferrerToRolexTickets_noop now1 ids rid s tU tr hids hrid hfind hall
  · intro h1
    exact assignReferrerToRolexTickets_idem now1 now2 ids rid s m h1

theorem c8_transfer_skip_target_and_idempotent_witness :
    assignReferrerToSales true 5 [0] "JD" exS8 = (.ok 0, exS8) ∧
    assignReferrerToRolexTickets true 5 [0, 1] "JD" exS8 = (.ok 0, exS8) ∧
    assignReferrerToSales true 6 [0, 1] "JD"
        (assignReferrerToSales true 5 [0, 1] "JD" exS8).2
      = (.ok 0, (assignReferrerToSales true 5 [0, 1] "JD" exS8).2) ∧
    assignReferrerToRolexTickets true 6 [0, 1, 2] "JD"
        (assignReferrerToRolexTickets true 5 [0, 1, 2] "JD" exS8).2
      = (.ok 0, (assignReferrerToRolexTickets true 5 [0, 1, 2] "JD" exS8).2) := by
  refine ⟨?_, ?_, ?_, ?_⟩
  · refine (c8_transfer_skip_target_and_idempotent 5 6 [0] "JD" exS8 "uJ" exRefJane
      0 0).1 (by decide) (by decide) rfl ?_
    intro id hid sale hs
    simp only [List.mem_singleton] at hid
    subst hid
    rw [show Store.lookup 0 exS8.splitThePotTickets = some exSaleA from rfl] at hs
    cases Option.some_inj.mp hs
    rfl
  · refine (c8_transfer_skip_target_and_idempotent 5 6 [0, 1] "JD" exS8 "uJ" exRefJane
      0 0).2.2.1 (by decide) (by decide) rfl ?_
    intro id hid e hl hstat
    simp only [List.mem_cons] at hid
    rcases hid with rfl | rfl | h3
    · rw [show Store.lookup 0 exS8.rolexEntries = some exEntryA from rfl] at hl
      cases Option.some_inj.mp hl
      rfl
    · rw [show Store.lookup 1 exS8.rolexEntries = some exEntryB from rfl] at hl
      cases Option.some_inj.mp hl
      exact absurd hstat (by decide)
    · exact absurd h3 (List.not_mem_nil id)
  · exact (c8_transfer_skip_target_and_idempotent 5 6 [0, 1] "JD" exS8 "uJ" exRefJane
      1 0).2.1 rfl
  · exact (c8_transfer_skip_target_and_idempotent 5 6 [0, 1, 2] "JD" exS8 "uJ" exRefJane
      0 3).2.2.2 rfl

end YdeRaffle
